import Mathlib

/-!
# syscull: a ptrace-based syscall fault injector

A shallow embedding of `src/syscull.c` and the properties of its
fault-injection policy, dispatcher and wait loop.

Conventions of the embedding:

* a 64-bit register (`unsigned long long`) is a `Nat`; every value the program
  stores is reduced modulo `2^64`;
* a C `int` is an `Int`; the conversion `(int)x` of a 64-bit value keeps the low
  32 bits and reads them as two's complement (`toInt`);
* the `static` counters `reads` and `writes` are threaded explicitly (`Statics`);
* the tracee is the environment: it supplies the wait statuses that `waitpid`
  delivers and the register snapshots that `PTRACE_GETREGS` returns.
-/

namespace Syscull

/-! ## Data model -/

/-- The x86-64 `struct user_regs_struct` of `sys/user.h`: 27 fields of type
`unsigned long long`, in declaration order. -/
structure user_regs_struct where
  r15 : Nat
  r14 : Nat
  r13 : Nat
  r12 : Nat
  rbp : Nat
  rbx : Nat
  r11 : Nat
  r10 : Nat
  r9 : Nat
  r8 : Nat
  rax : Nat
  rcx : Nat
  rdx : Nat
  rsi : Nat
  rdi : Nat
  orig_rax : Nat
  rip : Nat
  cs : Nat
  eflags : Nat
  rsp : Nat
  ss : Nat
  fs_base : Nat
  gs_base : Nat
  ds : Nat
  es : Nat
  fs : Nat
  gs : Nat
  deriving DecidableEq, Repr

/-- `SYS_read` of `sys/syscall.h` on x86-64. -/
def SYS_read : Int := 0
/-- `SYS_write` of `sys/syscall.h` on x86-64. -/
def SYS_write : Int := 1
/-- `SYS_getpid` of `sys/syscall.h` on x86-64. -/
def SYS_getpid : Int := 39
/-- `SYS_fork` of `sys/syscall.h` on x86-64. -/
def SYS_fork : Int := 57
/-- `EINTR` of `errno.h` on Linux. -/
def EINTR : Int := 4

/-- The conversion `(int)x` of a 64-bit unsigned value: the low 32 bits, read as
a two's-complement signed integer. -/
def toInt (x : Nat) : Int :=
  if x % 2 ^ 32 < 2 ^ 31 then ((x % 2 ^ 32 : Nat) : Int)
  else ((x % 2 ^ 32 : Nat) : Int) - 2 ^ 32

/-- The conversion of an `int` to `unsigned long long` on assignment to a
register field: the value modulo `2^64`. -/
def toU64 (i : Int) : Nat := (i % 2 ^ 64).toNat

/-- The conversion of a `bool` argument to the `int state` parameter of the
handlers. -/
def boolToInt (b : Bool) : Int := if b then 1 else 0

/-- The function-local `static uint64_t` counters of `handle_sys_read` and
`handle_sys_write`. -/
structure Statics where
  reads : Nat
  writes : Nat
  deriving DecidableEq, Repr

/-! ## Fault-injection handlers -/

/-- `handle_sys_read_write_common` (syscull.c:118-139). Returns the snapshot
after the call and the `bool` result. -/
def handle_sys_read_write_common (uregs : user_regs_struct) (state : Int) (count : Int) :
    user_regs_struct × Bool :=
  let fildes := toInt uregs.rdi
  if fildes = 0 ∨ fildes = 1 ∨ fildes = 2 then
    (uregs, false)
  else if Int.tmod count 5 = 4 then
    if state = 0 then
      ({ uregs with rdx := 0 }, true)
    else
      ({ uregs with rax := toU64 (-EINTR) }, true)
  else
    (uregs, false)

/-- `handle_sys_read` (syscull.c:141-147): the counter is a `uint64_t`, passed
to the `int count` parameter. -/
def handle_sys_read (s : Statics) (uregs : user_regs_struct) (state : Int) :
    Statics × user_regs_struct × Bool :=
  let s1 : Statics := if state = 0 then { s with reads := (s.reads + 1) % 2 ^ 64 } else s
  let r := handle_sys_read_write_common uregs state (toInt s1.reads)
  (s1, r.1, r.2)

/-- `handle_sys_write` (syscull.c:149-155). -/
def handle_sys_write (s : Statics) (uregs : user_regs_struct) (state : Int) :
    Statics × user_regs_struct × Bool :=
  let s1 : Statics := if state = 0 then { s with writes := (s.writes + 1) % 2 ^ 64 } else s
  let r := handle_sys_read_write_common uregs state (toInt s1.writes)
  (s1, r.1, r.2)

/-- `handle_sys_fork` (syscull.c:157-169). -/
def handle_sys_fork (uregs : user_regs_struct) (state : Int) : user_regs_struct × Bool :=
  if state = 0 then
    ({ uregs with orig_rax := toU64 SYS_fork }, true)
  else
    ({ uregs with rax := toU64 (-EINTR) }, true)

/-! ## The trace loop of `main` -/

/-- The variables of `main` that live across iterations of the trace loop,
together with the handlers' static counters. -/
structure LoopState where
  state : Bool
  previous_syscall : Int
  statics : Statics
  deriving DecidableEq, Repr

/-- What one iteration of the trace loop computes: the classification, the
handler's verdict, the local snapshot after the handler, the two values handed
to the debug line, and the `PTRACE_SETREGS` call if one is made. -/
structure Iteration where
  syscall_name : Option String
  modified : Bool
  uregs : user_regs_struct
  new_syscall : Int
  retval : Int
  setregs : Option user_regs_struct
  deriving DecidableEq, Repr

/-- The `switch (syscall)` of `main` (syscull.c:69-91), with the fall-through
of the `SYS_getpid` case into `default`. Returns the counters, the snapshot,
`syscall_name` and `modified`. -/
def dispatch (fork_fail : Bool) (st : LoopState) (uregs : user_regs_struct) (syscall : Int) :
    Statics × user_regs_struct × Option String × Bool :=
  if syscall = SYS_read then
    let r := handle_sys_read st.statics uregs (boolToInt st.state)
    (r.1, r.2.1, some "read", r.2.2)
  else if syscall = SYS_write then
    let r := handle_sys_write st.statics uregs (boolToInt st.state)
    (r.1, r.2.1, some "write", r.2.2)
  else if syscall = SYS_fork then
    if fork_fail then
      let r := handle_sys_fork uregs (boolToInt st.state)
      (st.statics, r.1, some "fork", r.2)
    else
      (st.statics, uregs, some "fork", false)
  else if syscall = SYS_getpid ∧ st.previous_syscall = SYS_fork then
    if fork_fail then
      let r := handle_sys_fork uregs (boolToInt st.state)
      (st.statics, r.1, some "fork", r.2)
    else
      (st.statics, uregs, some "fork", false)
  else
    (st.statics, uregs, none, false)

/-- One iteration of the `while (1)` loop of `main` after `wait_for_syscall`
reported a boundary (syscull.c:63-111); `uregs` is the snapshot that
`PTRACE_GETREGS` returned. -/
def main_step (fork_fail : Bool) (st : LoopState) (uregs : user_regs_struct) :
    LoopState × Iteration :=
  let syscall := toInt uregs.orig_rax
  let d := dispatch fork_fail st uregs syscall
  let uregs1 := d.2.1
  let modified := d.2.2.2
  ({ state := !st.state, previous_syscall := syscall, statics := d.1 },
   { syscall_name := d.2.2.1
     modified := modified
     uregs := uregs1
     new_syscall := toInt uregs1.orig_rax
     retval := toInt uregs1.rax
     setregs := if modified then some uregs1 else none })

/-- The loop state at the first iteration: `state = false`,
`previous_syscall = 0`, both counters zero. -/
def initial : LoopState :=
  { state := false, previous_syscall := 0, statics := { reads := 0, writes := 0 } }

/-- The trace loop run over the boundary snapshots of a tracee, in order; the
loop ends when `wait_for_syscall` reports termination, here the end of the
list. -/
def main_loop (fork_fail : Bool) : LoopState → List user_regs_struct → LoopState × List Iteration
  | st, [] => (st, [])
  | st, uregs :: rest =>
    let r := main_step fork_fail st uregs
    let t := main_loop fork_fail r.1 rest
    (t.1, r.2 :: t.2)

/-! ## The wait loop

A wait status is the `int` that `waitpid` stores; the kernel only produces
non-negative values, so a status is a `Nat` here. -/

/-- `WIFSTOPPED` of `sys/wait.h` (glibc): `(status & 0xff) == 0x7f`. -/
def WIFSTOPPED (status : Nat) : Bool := (status &&& 0xff) == 0x7f
/-- `WSTOPSIG` of `sys/wait.h` (glibc): `(status & 0xff00) >> 8`. -/
def WSTOPSIG (status : Nat) : Nat := (status &&& 0xff00) >>> 8
/-- `WIFEXITED` of `sys/wait.h` (glibc): `(status & 0x7f) == 0`. -/
def WIFEXITED (status : Nat) : Bool := (status &&& 0x7f) == 0

/-- The outcome of a call of `wait_for_syscall` that returns: the `bool`
result, the number of `PTRACE_SYSCALL` resumes issued, and the statuses not yet
consumed. -/
structure WaitResult where
  ret : Bool
  resumes : Nat
  rest : List Nat
  deriving DecidableEq, Repr

/-- `wait_for_syscall` (syscull.c:171-182) run against the statuses that
successive `waitpid` calls deliver. Every iteration resumes the child and
consumes one status. `none`: the statuses ran out before the loop returned, the
call is still blocked in `waitpid`. -/
def wait_for_syscall : List Nat → Option WaitResult
  | [] => none
  | status :: rest =>
    if WIFSTOPPED status && ((WSTOPSIG status &&& 0x80) != 0) then
      some { ret := false, resumes := 1, rest := rest }
    else if WIFEXITED status then
      some { ret := true, resumes := 1, rest := rest }
    else
      (wait_for_syscall rest).map fun r => { r with resumes := r.resumes + 1 }

/-! ## The selection test -/

/-- The test `count % 5 == 4` of `handle_sys_read_write_common` as a function
of the 64-bit counter that `handle_sys_read` and `handle_sys_write` pass to the
`int count` parameter. -/
def selected (counter : Nat) : Bool := decide (Int.tmod (toInt counter) 5 = 4)

/-! ## Counting boundaries -/

/-- The number of Entering boundaries with syscall number `nr` among `events`,
when the first of them is handled with phase flag `state` and the flag flips at
every boundary. -/
def entering_count (nr : Int) : Bool → List user_regs_struct → Nat
  | _, [] => 0
  | state, e :: rest =>
    (if state = false ∧ toInt e.orig_rax = nr then 1 else 0) + entering_count nr (!state) rest

/-! ## Fixtures: concrete snapshots -/

/-- A snapshot with every register zero. -/
def zero_regs : user_regs_struct :=
  ⟨0, 0, 0, 0, 0, 0, 0, 0, 0, 0, 0, 0, 0, 0, 0, 0, 0, 0, 0, 0, 0, 0, 0, 0, 0, 0, 0⟩

/-- A snapshot of a syscall boundary: syscall number `nr`, arguments `a1`,
`a2`, `a3` in `rdi`, `rsi`, `rdx`, and `ret` in `rax`. -/
def boundary (nr a1 a2 a3 ret : Nat) : user_regs_struct :=
  { zero_regs with orig_rax := nr, rdi := a1, rsi := a2, rdx := a3, rax := ret }

/-- The two boundaries of one `read(3, buf, 10)` that the kernel completes in
full: at entry `rax` holds `-ENOSYS`, at exit the 10 bytes read. -/
def pipe_read : List user_regs_struct :=
  [boundary 0 3 4096 10 (2 ^ 64 - 38), boundary 0 3 4096 10 10]

/-- Six `read` calls on descriptor 3, twelve boundaries. -/
def six_pipe_reads : List user_regs_struct :=
  pipe_read ++ pipe_read ++ pipe_read ++ pipe_read ++ pipe_read ++ pipe_read

/-- The two boundaries of one `write(4, buf, 10)` that the kernel completes
in full. -/
def pipe_write : List user_regs_struct :=
  [boundary 1 4 4096 10 (2 ^ 64 - 38), boundary 1 4 4096 10 10]

/-- An interleaving of four `write` calls and three `read` calls. -/
def interleaved : List user_regs_struct :=
  pipe_write ++ pipe_read ++ pipe_write ++ pipe_write ++ pipe_read ++ pipe_write ++ pipe_read

/-- The two boundaries of one `read(0, buf, 10)` on standard input. -/
def stdin_read : List user_regs_struct :=
  [boundary 0 0 4096 10 (2 ^ 64 - 38), boundary 0 0 4096 10 10]

/-- Three `read` calls on descriptor 0 followed by one on descriptor 3. -/
def stdin_then_pipe : List user_regs_struct :=
  stdin_read ++ stdin_read ++ stdin_read ++ pipe_read

/-! ## Write-back -/

/-- The tracee's registers after an iteration of the trace loop
(syscull.c:106-109): `PTRACE_SETREGS` runs only `if (modified)`; otherwise the
tracee keeps the registers that `PTRACE_GETREGS` copied into `uregs`. -/
def write_back_if_modified (uregs : user_regs_struct) (it : Iteration) : user_regs_struct :=
  match it.setregs with
  | some r => r
  | none => uregs

/-- The tracee's registers if instead the handler's resulting snapshot were
written back at every boundary, whatever the handler reported. -/
def write_back_always (it : Iteration) : user_regs_struct := it.uregs

/-! ## The previous syscall number -/

/-- The syscall number observed at the most recent Entering boundary of
`events`, as the data model of the specification describes the stored
previous-syscall value; `state` is the phase flag at the first boundary and
`prev` the value before it. -/
def last_entering_syscall : Bool → Int → List user_regs_struct → Int
  | _, prev, [] => prev
  | state, prev, e :: rest =>
    last_entering_syscall (!state) (if state = false then toInt e.orig_rax else prev) rest

/-- A `fork` call whose exit is reported under the `fork` number, followed by a
`getpid` call: four boundaries. -/
def fork_then_getpid : List user_regs_struct :=
  [boundary 57 0 0 0 (2 ^ 64 - 38), boundary 57 0 0 0 1234,
   boundary 39 0 0 0 (2 ^ 64 - 38), boundary 39 0 0 0 1234]

/-- A `fork` call whose exit is reported under the `getpid` number: two
boundaries. -/
def quirked_fork : List user_regs_struct :=
  [boundary 57 0 0 0 (2 ^ 64 - 38), boundary 39 0 0 0 1234]

/-! ## Arithmetic of the selection test -/

theorem tmod_five_nonpos (a : Int) (h : a < 0) : Int.tmod a 5 ≤ 0 := by
  obtain ⟨n, rfl⟩ := Int.eq_negSucc_of_lt_zero h
  show Int.tmod (Int.negSucc n) (Int.ofNat 5) ≤ 0
  simp only [Int.tmod]
  have : (0 : Int) ≤ Int.ofNat (n.succ % 5) := Int.ofNat_nonneg _
  omega

theorem tmod_toInt_eq_four (x : Nat) :
    Int.tmod (toInt x) 5 = 4 ↔ (x % 2 ^ 32 < 2 ^ 31 ∧ x % 2 ^ 32 % 5 = 4) := by
  unfold toInt
  split
  · rw [Int.tmod_eq_emod (by omega) (by omega)]
    omega
  · have := tmod_five_nonpos (((x % 2 ^ 32 : Nat) : Int) - 2 ^ 32) (by omega)
    omega

theorem toU64_neg_EINTR : toU64 (-EINTR) = 2 ^ 64 - 4 := by decide

theorem toU64_SYS_fork : toU64 SYS_fork = 57 := by decide

/-! ## One iteration of the trace loop -/

theorem main_step_state (fork_fail : Bool) (st : LoopState) (e : user_regs_struct) :
    (main_step fork_fail st e).1.state = !st.state := rfl

theorem main_step_previous_syscall (fork_fail : Bool) (st : LoopState) (e : user_regs_struct) :
    (main_step fork_fail st e).1.previous_syscall = toInt e.orig_rax := rfl

theorem main_step_reads (fork_fail : Bool) (st : LoopState) (e : user_regs_struct) :
    (main_step fork_fail st e).1.statics.reads =
      if st.state = false ∧ toInt e.orig_rax = SYS_read then (st.statics.reads + 1) % 2 ^ 64
      else st.statics.reads := by
  cases hs : st.state <;>
    simp only [main_step, dispatch, handle_sys_read, handle_sys_write, boolToInt, hs] <;>
    split_ifs <;> simp_all [SYS_read, SYS_write]

theorem main_step_writes (fork_fail : Bool) (st : LoopState) (e : user_regs_struct) :
    (main_step fork_fail st e).1.statics.writes =
      if st.state = false ∧ toInt e.orig_rax = SYS_write then (st.statics.writes + 1) % 2 ^ 64
      else st.statics.writes := by
  cases hs : st.state <;>
    simp only [main_step, dispatch, handle_sys_read, handle_sys_write, boolToInt, hs] <;>
    split_ifs <;> simp_all [SYS_read, SYS_write]

/-! ## The trace loop over a list of boundaries -/

theorem main_loop_length (fork_fail : Bool) (events : List user_regs_struct) :
    ∀ st : LoopState, (main_loop fork_fail st events).2.length = events.length := by
  induction events with
  | nil => intro st; rfl
  | cons e rest ih => intro st; simp [main_loop, ih]

/-- The `k`-th iteration is one step from the loop state reached after the
first `k` boundaries. -/
theorem main_loop_get (fork_fail : Bool) (events : List user_regs_struct) :
    ∀ (st : LoopState) (k : Nat) (e : user_regs_struct), events[k]? = some e →
      (main_loop fork_fail st events).2[k]? =
        some (main_step fork_fail (main_loop fork_fail st (events.take k)).1 e).2 := by
  induction events with
  | nil => intro st k e h; simp at h
  | cons e0 rest ih =>
    intro st k e h
    cases k with
    | zero =>
      simp only [List.getElem?_cons_zero, Option.some.injEq] at h
      subst h
      simp [main_loop]
    | succ k =>
      simp only [List.getElem?_cons_succ] at h
      simp only [main_loop, List.getElem?_cons_succ, List.take_succ_cons]
      exact ih _ k e h

theorem main_loop_state (fork_fail : Bool) (events : List user_regs_struct) :
    ∀ st : LoopState,
      (main_loop fork_fail st events).1.state = xor st.state (decide (events.length % 2 = 1)) := by
  induction events with
  | nil => intro st; simp [main_loop]
  | cons e rest ih =>
    intro st
    simp only [main_loop, ih, main_step_state, List.length_cons]
    cases st.state <;> by_cases h : rest.length % 2 = 1 <;>
      simp [h] <;> omega

theorem main_loop_reads (fork_fail : Bool) (events : List user_regs_struct) :
    ∀ st : LoopState, st.statics.reads < 2 ^ 64 →
      (main_loop fork_fail st events).1.statics.reads =
        (st.statics.reads + entering_count SYS_read st.state events) % 2 ^ 64 := by
  induction events with
  | nil => intro st h; simp [main_loop, entering_count]; omega
  | cons e rest ih =>
    intro st h
    have hlt : (main_step fork_fail st e).1.statics.reads < 2 ^ 64 := by
      rw [main_step_reads]; split_ifs <;> omega
    simp only [main_loop, ih _ hlt, main_step_state, entering_count]
    rw [main_step_reads]
    split_ifs <;> omega

theorem main_loop_writes (fork_fail : Bool) (events : List user_regs_struct) :
    ∀ st : LoopState, st.statics.writes < 2 ^ 64 →
      (main_loop fork_fail st events).1.statics.writes =
        (st.statics.writes + entering_count SYS_write st.state events) % 2 ^ 64 := by
  induction events with
  | nil => intro st h; simp [main_loop, entering_count]; omega
  | cons e rest ih =>
    intro st h
    have hlt : (main_step fork_fail st e).1.statics.writes < 2 ^ 64 := by
      rw [main_step_writes]; split_ifs <;> omega
    simp only [main_loop, ih _ hlt, main_step_state, entering_count]
    rw [main_step_writes]
    split_ifs <;> omega

/-- When every boundary reports `nr`, the Entering boundaries are every second
one. -/
theorem entering_count_all (nr : Int) (events : List user_regs_struct)
    (h : ∀ e ∈ events, toInt e.orig_rax = nr) :
    ∀ state : Bool,
      entering_count nr state events = (events.length + (if state then 0 else 1)) / 2 := by
  induction events with
  | nil => intro state; cases state <;> simp [entering_count]
  | cons e rest ih =>
    intro state
    have he : toInt e.orig_rax = nr := h e (List.mem_cons_self _ _)
    have hr : ∀ x ∈ rest, toInt x.orig_rax = nr := fun x hx => h x (List.mem_cons_of_mem _ hx)
    cases state
    · simp only [entering_count, ih hr, he, List.length_cons]
      simp
      omega
    · simp only [entering_count, ih hr, he, List.length_cons]
      simp

/-! ## Read and write handlers -/

/-- C1: a `read` or `write` boundary whose descriptor (`rdi` read as an
`int`) is 0, 1 or 2 is never mutated: in either phase and for every counter
value, `handle_sys_read` and `handle_sys_write` return `false` and the snapshot
they were given. -/
theorem exempt_descriptor_passes_through (s : Statics) (uregs : user_regs_struct) (state : Int)
    (h : toInt uregs.rdi = 0 ∨ toInt uregs.rdi = 1 ∨ toInt uregs.rdi = 2) :
    (handle_sys_read s uregs state).2 = (uregs, false) ∧
    (handle_sys_write s uregs state).2 = (uregs, false) := by
  simp [handle_sys_read, handle_sys_write, handle_sys_read_write_common, h]

theorem exempt_descriptor_passes_through_witness :
    (toInt (boundary 0 1 4096 10 0).rdi = 0 ∨ toInt (boundary 0 1 4096 10 0).rdi = 1 ∨
      toInt (boundary 0 1 4096 10 0).rdi = 2) ∧
    (handle_sys_read ⟨3, 3⟩ (boundary 0 1 4096 10 0) 0).2 = (boundary 0 1 4096 10 0, false) ∧
    (handle_sys_write ⟨3, 3⟩ (boundary 0 1 4096 10 0) 0).2 = (boundary 0 1 4096 10 0, false) :=
  ⟨by decide, exempt_descriptor_passes_through ⟨3, 3⟩ (boundary 0 1 4096 10 0) 0 (by decide)⟩

theorem selected_iff (c : Nat) :
    selected c = true ↔ (c % 2 ^ 32 < 2 ^ 31 ∧ c % 2 ^ 32 % 5 = 4) := by
  simp only [selected, decide_eq_true_eq, tmod_toInt_eq_four]

theorem selected_congr (a b : Nat) (h : a % 2 ^ 32 = b % 2 ^ 32) : selected a = selected b := by
  have : toInt a = toInt b := by simp only [toInt, h]
  simp only [selected, this]

theorem selected_small (n : Nat) (h : n < 2 ^ 31) : selected n = true ↔ n % 5 = 4 := by
  rw [selected_iff, Nat.mod_eq_of_lt (by omega : n < 2 ^ 32)]
  exact ⟨fun h => h.2, fun h5 => ⟨h, h5⟩⟩

/-- The handler's result on a descriptor other than 0, 1, 2, by the counter
value it is passed. -/
theorem common_not_exempt (uregs : user_regs_struct) (state : Int) (count : Nat)
    (h0 : toInt uregs.rdi ≠ 0) (h1 : toInt uregs.rdi ≠ 1) (h2 : toInt uregs.rdi ≠ 2) :
    handle_sys_read_write_common uregs state (toInt count) =
      if selected count = true then
        if state = 0 then ({ uregs with rdx := 0 }, true)
        else ({ uregs with rax := 2 ^ 64 - 4 }, true)
      else (uregs, false) := by
  simp only [handle_sys_read_write_common, h0, h1, h2, or_self, if_false, selected,
    decide_eq_true_eq, toU64_neg_EINTR]

/-- The counter value that `handle_sys_read` passes on. -/
theorem handle_sys_read_result (s : Statics) (uregs : user_regs_struct) (b : Bool) :
    (handle_sys_read s uregs (boolToInt b)).2 =
      handle_sys_read_write_common uregs (boolToInt b)
        (toInt (if b = false then (s.reads + 1) % 2 ^ 64 else s.reads)) := by
  cases b <;> simp [handle_sys_read, boolToInt]

/-- The counter value that `handle_sys_write` passes on. -/
theorem handle_sys_write_result (s : Statics) (uregs : user_regs_struct) (b : Bool) :
    (handle_sys_write s uregs (boolToInt b)).2 =
      handle_sys_read_write_common uregs (boolToInt b)
        (toInt (if b = false then (s.writes + 1) % 2 ^ 64 else s.writes)) := by
  cases b <;> simp [handle_sys_write, boolToInt]

theorem main_step_read (fork_fail : Bool) (st : LoopState) (e : user_regs_struct)
    (h : toInt e.orig_rax = SYS_read) :
    (main_step fork_fail st e).2.uregs =
        (handle_sys_read st.statics e (boolToInt st.state)).2.1 ∧
      (main_step fork_fail st e).2.modified =
        (handle_sys_read st.statics e (boolToInt st.state)).2.2 := by
  simp [main_step, dispatch, h]

theorem main_step_write (fork_fail : Bool) (st : LoopState) (e : user_regs_struct)
    (h : toInt e.orig_rax = SYS_write) :
    (main_step fork_fail st e).2.uregs =
        (handle_sys_write st.statics e (boolToInt st.state)).2.1 ∧
      (main_step fork_fail st e).2.modified =
        (handle_sys_write st.statics e (boolToInt st.state)).2.2 := by
  simp [main_step, dispatch, h, SYS_read, SYS_write]

/-! ## The read schedule -/

/-- The loop state after the first `k` boundaries of a trace in which every
boundary reports `read`: the phase flag is the parity of `k` and the read
counter is the number of calls entered so far. -/
theorem all_reads_state (fork_fail : Bool) (events : List user_regs_struct)
    (hread : ∀ e ∈ events, toInt e.orig_rax = SYS_read) (k : Nat) (hk : k < events.length) :
    (main_loop fork_fail initial (events.take k)).1.state = decide (k % 2 = 1) ∧
    (main_loop fork_fail initial (events.take k)).1.statics.reads = ((k + 1) / 2) % 2 ^ 64 := by
  have hlen : (events.take k).length = k := by
    rw [List.length_take]; omega
  have htake : ∀ e ∈ events.take k, toInt e.orig_rax = SYS_read :=
    fun e he => hread e (List.mem_of_mem_take he)
  constructor
  · rw [main_loop_state, hlen]; simp [initial]
  · rw [main_loop_reads _ _ _ (by simp [initial]), entering_count_all _ _ htake, hlen]
    simp [initial]

/-- C2 (as amended): from a fresh trace of `read` calls on descriptors other
than 0, 1, 2, the boundary with index `k` belongs to call `N = k / 2 + 1`; that
call is selected exactly when the low 32 bits of `N`, read as a signed `int`,
have truncating remainder 4 modulo 5, which for `N < 2^31` is `N mod 5 = 4`.
A selected call has `rdx` set to 0 at its Entering boundary and `rax` set to
`-EINTR` (`2^64 - 4`) at its Exiting boundary; an unselected call is
unchanged at both. -/
theorem read_schedule (fork_fail : Bool) (events : List user_regs_struct)
    (hread : ∀ e ∈ events, toInt e.orig_rax = SYS_read)
    (hfd : ∀ e ∈ events, toInt e.rdi ≠ 0 ∧ toInt e.rdi ≠ 1 ∧ toInt e.rdi ≠ 2)
    (k : Nat) (e : user_regs_struct) (he : events[k]? = some e) :
    ∃ it, (main_loop fork_fail initial events).2[k]? = some it ∧
      (it.modified = true ↔
        ((k / 2 + 1) % 2 ^ 32 < 2 ^ 31 ∧ (k / 2 + 1) % 2 ^ 32 % 5 = 4)) ∧
      (k / 2 + 1 < 2 ^ 31 → (it.modified = true ↔ (k / 2 + 1) % 5 = 4)) ∧
      (it.modified = true → k % 2 = 0 → it.uregs = { e with rdx := 0 }) ∧
      (it.modified = true → k % 2 = 1 → it.uregs = { e with rax := 2 ^ 64 - 4 }) ∧
      (it.modified = false → it.uregs = e) := by
  have hk : k < events.length := by
    rcases List.getElem?_eq_some.1 he with ⟨h, _⟩
    exact h
  have hmem : e ∈ events := by
    rcases List.getElem?_eq_some.1 he with ⟨h, rfl⟩
    exact List.getElem_mem _
  obtain ⟨hst, hrd⟩ := all_reads_state fork_fail events hread k hk
  obtain ⟨hu, hm⟩ := main_step_read fork_fail
    (main_loop fork_fail initial (events.take k)).1 e (hread e hmem)
  obtain ⟨h0, h1, h2⟩ := hfd e hmem
  refine ⟨_, main_loop_get fork_fail events initial k e he, ?_⟩
  rw [hu, hm, handle_sys_read_result, hst, hrd, common_not_exempt _ _ _ h0 h1 h2]
  have hcount : selected (if decide (k % 2 = 1) = false then ((k + 1) / 2 % 2 ^ 64 + 1) % 2 ^ 64
      else (k + 1) / 2 % 2 ^ 64) = selected (k / 2 + 1) := by
    apply selected_congr
    split_ifs with hp
    · simp only [decide_eq_false_iff_not] at hp; omega
    · simp only [decide_eq_false_iff_not, not_not] at hp; omega
  rw [hcount, ← selected_iff]
  have hsm : k / 2 + 1 < 2 ^ 31 → (selected (k / 2 + 1) = true ↔ (k / 2 + 1) % 5 = 4) :=
    selected_small _
  rcases Nat.mod_two_eq_zero_or_one k with hp | hp
  · have hb : boolToInt (decide (k % 2 = 1)) = 0 := by simp [hp, boolToInt]
    rw [hb]
    cases hsel : selected (k / 2 + 1) <;> simp_all
  · have hb : boolToInt (decide (k % 2 = 1)) = 1 := by simp [hp, boolToInt]
    rw [hb]
    cases hsel : selected (k / 2 + 1) <;> simp_all

theorem read_schedule_witness :
    (∀ e ∈ six_pipe_reads, toInt e.orig_rax = SYS_read) ∧
    (∀ e ∈ six_pipe_reads, toInt e.rdi ≠ 0 ∧ toInt e.rdi ≠ 1 ∧ toInt e.rdi ≠ 2) ∧
    six_pipe_reads[6]? = some (boundary 0 3 4096 10 (2 ^ 64 - 38)) ∧
    ∃ it, (main_loop false initial six_pipe_reads).2[6]? = some it ∧
      (it.modified = true ↔
        ((6 / 2 + 1) % 2 ^ 32 < 2 ^ 31 ∧ (6 / 2 + 1) % 2 ^ 32 % 5 = 4)) ∧
      (6 / 2 + 1 < 2 ^ 31 → (it.modified = true ↔ (6 / 2 + 1) % 5 = 4)) ∧
      (it.modified = true → 6 % 2 = 0 →
        it.uregs = { boundary 0 3 4096 10 (2 ^ 64 - 38) with rdx := 0 }) ∧
      (it.modified = true → 6 % 2 = 1 →
        it.uregs = { boundary 0 3 4096 10 (2 ^ 64 - 38) with rax := 2 ^ 64 - 4 }) ∧
      (it.modified = false → it.uregs = boundary 0 3 4096 10 (2 ^ 64 - 38)) :=
  ⟨by decide, by decide, by decide,
    read_schedule false six_pipe_reads (by decide) (by decide) 6 _ (by decide)⟩

/-- C2 as stated fails: of six reads on descriptor 3 from a fresh trace, the
boundaries of call 4 (indices 6 and 7) are the ones mutated, `rdx` zeroed at
entry and `rax` forged at exit, and both boundaries of call 5 (indices 8 and 9)
are left alone; so "selected iff N mod 5 = 0" does not hold. -/
theorem read_schedule_every_fifth_fails :
    (∀ e ∈ six_pipe_reads, toInt e.orig_rax = SYS_read ∧ toInt e.rdi = 3) ∧
    (main_loop false initial six_pipe_reads).2.map Iteration.modified =
      [false, false, false, false, false, false, true, true, false, false, false, false] ∧
    (main_loop false initial six_pipe_reads).2.map Iteration.uregs =
      [boundary 0 3 4096 10 (2 ^ 64 - 38), boundary 0 3 4096 10 10,
       boundary 0 3 4096 10 (2 ^ 64 - 38), boundary 0 3 4096 10 10,
       boundary 0 3 4096 10 (2 ^ 64 - 38), boundary 0 3 4096 10 10,
       boundary 0 3 4096 0 (2 ^ 64 - 38), boundary 0 3 4096 10 (2 ^ 64 - 4),
       boundary 0 3 4096 10 (2 ^ 64 - 38), boundary 0 3 4096 10 10,
       boundary 0 3 4096 10 (2 ^ 64 - 38), boundary 0 3 4096 10 10] ∧
    ¬ (∀ k it, (main_loop false initial six_pipe_reads).2[k]? = some it →
        (it.modified = true ↔ (k / 2 + 1) % 5 = 0)) := by
  refine ⟨by decide, by decide, by decide, fun h => ?_⟩
  have h8 := h 8 _ rfl
  revert h8
  decide

/-! ## Independence of the two counters -/

theorem entering_count_snoc (nr : Int) (events : List user_regs_struct) (e : user_regs_struct) :
    ∀ state : Bool,
      entering_count nr state (events ++ [e]) =
        entering_count nr state events +
          (if xor state (decide (events.length % 2 = 1)) = false ∧ toInt e.orig_rax = nr
            then 1 else 0) := by
  induction events with
  | nil => intro state; simp [entering_count]
  | cons x rest ih =>
    intro state
    have hflip : xor (!state) (decide (rest.length % 2 = 1)) =
        xor state (decide ((rest.length + 1) % 2 = 1)) := by
      cases state <;> by_cases h : rest.length % 2 = 1 <;> simp [h] <;> omega
    rw [List.cons_append]
    simp only [entering_count, List.length_cons]
    rw [ih, hflip]
    omega

/-- The value of a counter when the boundary with index `k` is handled: the
number of Entering boundaries of that kind up to and including it. -/
theorem entering_count_take_succ (nr : Int) (events : List user_regs_struct) (k : Nat)
    (e : user_regs_struct) (he : events[k]? = some e) (hnr : toInt e.orig_rax = nr) :
    entering_count nr false (events.take (k + 1)) =
      entering_count nr false (events.take k) + (if decide (k % 2 = 1) = false then 1 else 0) := by
  have hk : k < events.length := (List.getElem?_eq_some.1 he).1
  have hlen : (events.take k).length = k := by rw [List.length_take]; omega
  have hsnoc : events.take (k + 1) = events.take k ++ [e] := by
    rw [List.take_succ, he]; rfl
  rw [hsnoc, entering_count_snoc, hlen]
  simp [hnr]

/-- C3: the two counters are disjoint and drive the same schedule.
`handle_sys_read` leaves `writes` alone, `handle_sys_write` leaves `reads`
alone, and `handle_sys_write` with write counter `c` does to the snapshot what
`handle_sys_read` does with read counter `c`. Hence in any interleaving, run
from the initial loop state, the outcome of a `write` boundary with index `k`
is `handle_sys_read_write_common` applied to the number of `write` Entering
boundaries among the boundaries `0..k` (modulo `2^64`), whatever the other
boundaries are; and symmetrically for `read`. -/
theorem counters_independent (fork_fail : Bool) (events : List user_regs_struct) (k : Nat)
    (e : user_regs_struct) (he : events[k]? = some e)
    (s : Statics) (uregs : user_regs_struct) (state : Int) (c : Nat) :
    (handle_sys_read s uregs state).1.writes = s.writes ∧
    (handle_sys_write s uregs state).1.reads = s.reads ∧
    (handle_sys_write { reads := s.reads, writes := c } uregs state).2 =
      (handle_sys_read { reads := c, writes := s.writes } uregs state).2 ∧
    (handle_sys_write { reads := s.reads, writes := c } uregs state).1.writes =
      (handle_sys_read { reads := c, writes := s.writes } uregs state).1.reads ∧
    (toInt e.orig_rax = SYS_write →
      ∃ it, (main_loop fork_fail initial events).2[k]? = some it ∧
        (it.uregs, it.modified) =
          handle_sys_read_write_common e (boolToInt (decide (k % 2 = 1)))
            (toInt (entering_count SYS_write false (events.take (k + 1)) % 2 ^ 64))) ∧
    (toInt e.orig_rax = SYS_read →
      ∃ it, (main_loop fork_fail initial events).2[k]? = some it ∧
        (it.uregs, it.modified) =
          handle_sys_read_write_common e (boolToInt (decide (k % 2 = 1)))
            (toInt (entering_count SYS_read false (events.take (k + 1)) % 2 ^ 64))) := by
  have hk : k < events.length := (List.getElem?_eq_some.1 he).1
  have hlen : (events.take k).length = k := by rw [List.length_take]; omega
  have hst : (main_loop fork_fail initial (events.take k)).1.state = decide (k % 2 = 1) := by
    rw [main_loop_state, hlen]; simp [initial]
  refine ⟨?_, ?_, ?_, ?_, fun hw => ?_, fun hr => ?_⟩
  · simp only [handle_sys_read]; split_ifs <;> rfl
  · simp only [handle_sys_write]; split_ifs <;> rfl
  · simp only [handle_sys_read, handle_sys_write]; split_ifs <;> rfl
  · simp only [handle_sys_read, handle_sys_write]; split_ifs <;> rfl
  · obtain ⟨hu, hm⟩ := main_step_write fork_fail
      (main_loop fork_fail initial (events.take k)).1 e hw
    refine ⟨_, main_loop_get fork_fail events initial k e he, ?_⟩
    rw [hu, hm, Prod.mk.eta, handle_sys_write_result, hst,
      main_loop_writes _ _ _ (by simp [initial]), entering_count_take_succ _ _ _ _ he hw]
    congr 2
    simp only [initial, Nat.zero_add]
    split_ifs <;> omega
  · obtain ⟨hu, hm⟩ := main_step_read fork_fail
      (main_loop fork_fail initial (events.take k)).1 e hr
    refine ⟨_, main_loop_get fork_fail events initial k e he, ?_⟩
    rw [hu, hm, Prod.mk.eta, handle_sys_read_result, hst,
      main_loop_reads _ _ _ (by simp [initial]), entering_count_take_succ _ _ _ _ he hr]
    congr 2
    simp only [initial, Nat.zero_add]
    split_ifs <;> omega

theorem counters_independent_witness :
    interleaved[10]? = some (boundary 1 4 4096 10 (2 ^ 64 - 38)) ∧
    ∃ it, (main_loop false initial interleaved).2[10]? = some it ∧
      (it.uregs, it.modified) = (boundary 1 4 4096 0 (2 ^ 64 - 38), true) :=
  ⟨by decide, by
    obtain ⟨it, hit, hres⟩ :=
      (counters_independent false interleaved 10 _ (by decide : interleaved[10]? = some
        (boundary 1 4 4096 10 (2 ^ 64 - 38))) ⟨0, 0⟩ zero_regs 0 0).2.2.2.2.1 (by decide)
    exact ⟨it, hit, hres.trans (by decide)⟩⟩

/-! ## The dispatcher: fork, getpid and everything else -/

/-- What the dispatcher does at a boundary it classifies as `fork` when
fork-failure simulation is on. -/
theorem main_step_fork_on (st : LoopState) (e : user_regs_struct)
    (h : toInt e.orig_rax = SYS_fork ∨
      (toInt e.orig_rax = SYS_getpid ∧ st.previous_syscall = SYS_fork)) :
    (main_step true st e).2.syscall_name = some "fork" ∧
    (main_step true st e).2.modified = true ∧
    (main_step true st e).2.uregs = (handle_sys_fork e (boolToInt st.state)).1 ∧
    (main_step true st e).2.setregs = some (handle_sys_fork e (boolToInt st.state)).1 ∧
    (main_step true st e).1.statics = st.statics := by
  have hmod : ∀ i : Int, (handle_sys_fork e i).2 = true := by
    intro i; simp only [handle_sys_fork]; split_ifs <;> rfl
  rcases h with h | ⟨h, hp⟩
  · simp [main_step, dispatch, h, hmod, SYS_read, SYS_write, SYS_fork]
  · simp [main_step, dispatch, h, hp, hmod, SYS_read, SYS_write, SYS_fork, SYS_getpid]

/-- C4: with fork-failure simulation on, every `fork` call has its return
register forged. From any loop state in the Entering phase (any counters, any
history), after a boundary that reports `fork`, the next boundary, whether it
reports `fork` or `getpid`, is classified as `fork`, `rax` is set to `-EINTR`
(`2^64 - 4`) with every other register kept, a mutation is reported and the
snapshot is written back. -/
theorem fork_exit_forged (st : LoopState) (entry exit_regs : user_regs_struct)
    (hphase : st.state = false)
    (hentry : toInt entry.orig_rax = SYS_fork)
    (hexit : toInt exit_regs.orig_rax = SYS_fork ∨ toInt exit_regs.orig_rax = SYS_getpid) :
    (main_step true (main_step true st entry).1 exit_regs).2.syscall_name = some "fork" ∧
    (main_step true (main_step true st entry).1 exit_regs).2.modified = true ∧
    (main_step true (main_step true st entry).1 exit_regs).2.uregs =
      { exit_regs with rax := 2 ^ 64 - 4 } ∧
    (main_step true (main_step true st entry).1 exit_regs).2.uregs.rax = toU64 (-EINTR) ∧
    (main_step true (main_step true st entry).1 exit_regs).2.setregs =
      some { exit_regs with rax := 2 ^ 64 - 4 } := by
  have hprev : (main_step true st entry).1.previous_syscall = SYS_fork := by
    rw [main_step_previous_syscall, hentry]
  have hstate : (main_step true st entry).1.state = true := by
    rw [main_step_state, hphase]; rfl
  have hclass : toInt exit_regs.orig_rax = SYS_fork ∨
      (toInt exit_regs.orig_rax = SYS_getpid ∧
        (main_step true st entry).1.previous_syscall = SYS_fork) := by
    rcases hexit with h | h
    · exact Or.inl h
    · exact Or.inr ⟨h, hprev⟩
  obtain ⟨hn, hm, hu, hs, _⟩ := main_step_fork_on (main_step true st entry).1 exit_regs hclass
  have hfork : (handle_sys_fork exit_regs (boolToInt true)).1 =
      { exit_regs with rax := 2 ^ 64 - 4 } := by
    simp [handle_sys_fork, boolToInt, toU64_neg_EINTR]
  rw [hstate, hfork] at hu hs
  refine ⟨hn, hm, hu, ?_, hs⟩
  rw [hu, toU64_neg_EINTR]

theorem fork_exit_forged_witness :
    initial.state = false ∧
    toInt (boundary 57 0 0 0 (2 ^ 64 - 38)).orig_rax = SYS_fork ∧
    (toInt (boundary 39 0 0 0 1234).orig_rax = SYS_fork ∨
      toInt (boundary 39 0 0 0 1234).orig_rax = SYS_getpid) ∧
    (main_step true (main_step true initial (boundary 57 0 0 0 (2 ^ 64 - 38))).1
      (boundary 39 0 0 0 1234)).2.syscall_name = some "fork" ∧
    (main_step true (main_step true initial (boundary 57 0 0 0 (2 ^ 64 - 38))).1
      (boundary 39 0 0 0 1234)).2.modified = true ∧
    (main_step true (main_step true initial (boundary 57 0 0 0 (2 ^ 64 - 38))).1
      (boundary 39 0 0 0 1234)).2.uregs = { boundary 39 0 0 0 1234 with rax := 2 ^ 64 - 4 } ∧
    (main_step true (main_step true initial (boundary 57 0 0 0 (2 ^ 64 - 38))).1
      (boundary 39 0 0 0 1234)).2.uregs.rax = toU64 (-EINTR) ∧
    (main_step true (main_step true initial (boundary 57 0 0 0 (2 ^ 64 - 38))).1
      (boundary 39 0 0 0 1234)).2.setregs = some { boundary 39 0 0 0 1234 with rax := 2 ^ 64 - 4 } :=
  ⟨rfl, by decide, by decide,
    fork_exit_forged initial (boundary 57 0 0 0 (2 ^ 64 - 38)) (boundary 39 0 0 0 1234) rfl
      (by decide) (by decide)⟩

/-- C5: with fork-failure simulation off, a boundary that reports `fork`, or
that reports `getpid` while the recorded previous syscall is `fork`, is left
alone in either phase: no mutation is reported, the snapshot is unchanged,
`PTRACE_SETREGS` is not called, and the counters are untouched. -/
theorem fork_untouched_when_disabled (st : LoopState) (e : user_regs_struct)
    (h : toInt e.orig_rax = SYS_fork ∨
      (toInt e.orig_rax = SYS_getpid ∧ st.previous_syscall = SYS_fork)) :
    (main_step false st e).2.modified = false ∧
    (main_step false st e).2.uregs = e ∧
    (main_step false st e).2.setregs = none ∧
    (main_step false st e).1.statics = st.statics := by
  rcases h with h | ⟨h, hp⟩
  · simp [main_step, dispatch, h, SYS_read, SYS_write, SYS_fork]
  · simp [main_step, dispatch, h, hp, SYS_read, SYS_write, SYS_fork, SYS_getpid]

theorem fork_untouched_when_disabled_witness :
    (toInt (boundary 39 0 0 0 1234).orig_rax = SYS_fork ∨
      (toInt (boundary 39 0 0 0 1234).orig_rax = SYS_getpid ∧
        (⟨true, 57, ⟨0, 0⟩⟩ : LoopState).previous_syscall = SYS_fork)) ∧
    (main_step false ⟨true, 57, ⟨0, 0⟩⟩ (boundary 39 0 0 0 1234)).2.modified = false ∧
    (main_step false ⟨true, 57, ⟨0, 0⟩⟩ (boundary 39 0 0 0 1234)).2.uregs =
      boundary 39 0 0 0 1234 ∧
    (main_step false ⟨true, 57, ⟨0, 0⟩⟩ (boundary 39 0 0 0 1234)).2.setregs = none ∧
    (main_step false ⟨true, 57, ⟨0, 0⟩⟩ (boundary 39 0 0 0 1234)).1.statics = ⟨0, 0⟩ :=
  ⟨by decide, fork_untouched_when_disabled ⟨true, 57, ⟨0, 0⟩⟩ (boundary 39 0 0 0 1234)
    (by decide)⟩

/-- C6: a boundary that reports `getpid` while the recorded previous syscall
is not `fork` falls through to `default`: in either phase and with
fork-failure simulation on or off it is not named `fork` (it gets no name),
no mutation is reported, the snapshot is unchanged and nothing is written
back. -/
theorem unrelated_getpid_passes_through (fork_fail : Bool) (st : LoopState)
    (e : user_regs_struct)
    (hgetpid : toInt e.orig_rax = SYS_getpid) (hprev : st.previous_syscall ≠ SYS_fork) :
    (main_step fork_fail st e).2.syscall_name = none ∧
    (main_step fork_fail st e).2.syscall_name ≠ some "fork" ∧
    (main_step fork_fail st e).2.modified = false ∧
    (main_step fork_fail st e).2.uregs = e ∧
    (main_step fork_fail st e).2.setregs = none := by
  have hprev57 : st.previous_syscall ≠ 57 := hprev
  simp [main_step, dispatch, hgetpid, hprev57, SYS_read, SYS_write, SYS_fork, SYS_getpid]

theorem unrelated_getpid_passes_through_witness :
    toInt (boundary 39 0 0 0 1234).orig_rax = SYS_getpid ∧
    (⟨true, 39, ⟨4, 4⟩⟩ : LoopState).previous_syscall ≠ SYS_fork ∧
    (main_step true ⟨true, 39, ⟨4, 4⟩⟩ (boundary 39 0 0 0 1234)).2.syscall_name = none ∧
    (main_step true ⟨true, 39, ⟨4, 4⟩⟩ (boundary 39 0 0 0 1234)).2.syscall_name ≠ some "fork" ∧
    (main_step true ⟨true, 39, ⟨4, 4⟩⟩ (boundary 39 0 0 0 1234)).2.modified = false ∧
    (main_step true ⟨true, 39, ⟨4, 4⟩⟩ (boundary 39 0 0 0 1234)).2.uregs =
      boundary 39 0 0 0 1234 ∧
    (main_step true ⟨true, 39, ⟨4, 4⟩⟩ (boundary 39 0 0 0 1234)).2.setregs = none :=
  ⟨by decide, by decide,
    unrelated_getpid_passes_through true ⟨true, 39, ⟨4, 4⟩⟩ (boundary 39 0 0 0 1234)
      (by decide) (by decide)⟩

/-- C8: a boundary whose syscall number is none of `read`, `write`, `fork`,
`getpid` passes through: in either phase, for every counter value, previous
syscall and fork toggle, no mutation is reported, every register is unchanged,
nothing is written back and neither counter changes. -/
theorem other_syscall_passes_through (fork_fail : Bool) (st : LoopState) (e : user_regs_struct)
    (hread : toInt e.orig_rax ≠ SYS_read) (hwrite : toInt e.orig_rax ≠ SYS_write)
    (hfork : toInt e.orig_rax ≠ SYS_fork) (hgetpid : toInt e.orig_rax ≠ SYS_getpid) :
    (main_step fork_fail st e).2.modified = false ∧
    (main_step fork_fail st e).2.uregs = e ∧
    (main_step fork_fail st e).2.setregs = none ∧
    (main_step fork_fail st e).1.statics = st.statics := by
  simp [main_step, dispatch, hread, hwrite, hfork, hgetpid]

theorem other_syscall_passes_through_witness :
    toInt (boundary 2 4096 0 0 3).orig_rax ≠ SYS_read ∧
    toInt (boundary 2 4096 0 0 3).orig_rax ≠ SYS_write ∧
    toInt (boundary 2 4096 0 0 3).orig_rax ≠ SYS_fork ∧
    toInt (boundary 2 4096 0 0 3).orig_rax ≠ SYS_getpid ∧
    (main_step true ⟨true, 57, ⟨4, 4⟩⟩ (boundary 2 4096 0 0 3)).2.modified = false ∧
    (main_step true ⟨true, 57, ⟨4, 4⟩⟩ (boundary 2 4096 0 0 3)).2.uregs = boundary 2 4096 0 0 3 ∧
    (main_step true ⟨true, 57, ⟨4, 4⟩⟩ (boundary 2 4096 0 0 3)).2.setregs = none ∧
    (main_step true ⟨true, 57, ⟨4, 4⟩⟩ (boundary 2 4096 0 0 3)).1.statics = ⟨4, 4⟩ :=
  ⟨by decide, by decide, by decide, by decide,
    other_syscall_passes_through true ⟨true, 57, ⟨4, 4⟩⟩ (boundary 2 4096 0 0 3)
      (by decide) (by decide) (by decide) (by decide)⟩

/-! ## Phase alternation -/

/-- The only snapshots an iteration can produce, by phase: at an Entering
boundary the input, the input with `rdx` zeroed, or the input with `orig_rax`
set to `SYS_fork`; at an Exiting boundary the input, or the input with `rax`
set to `-EINTR`. -/
theorem main_step_uregs_cases (fork_fail : Bool) (st : LoopState) (e : user_regs_struct) :
    (st.state = false →
      (main_step fork_fail st e).2.uregs = e ∨
      (main_step fork_fail st e).2.uregs = { e with rdx := 0 } ∨
      (main_step fork_fail st e).2.uregs = { e with orig_rax := 57 }) ∧
    (st.state = true →
      (main_step fork_fail st e).2.uregs = e ∨
      (main_step fork_fail st e).2.uregs = { e with rax := 2 ^ 64 - 4 }) := by
  have h0 : boolToInt false = 0 := rfl
  have h1 : boolToInt true = 1 := rfl
  constructor
  · intro hs
    simp only [main_step, dispatch, handle_sys_read, handle_sys_write, handle_sys_fork,
      handle_sys_read_write_common, hs, h0, toU64_SYS_fork, if_true]
    split_ifs <;> simp
  · intro hs
    simp only [main_step, dispatch, handle_sys_read, handle_sys_write, handle_sys_fork,
      handle_sys_read_write_common, hs, h1, toU64_neg_EINTR, one_ne_zero, if_false]
    split_ifs <;> simp

/-- C7: the phase flag starts as Entering (`false`) and every iteration flips
it, whatever the syscall number and whether or not the snapshot was mutated.
So the boundary with index `k` (0-based) is handled as Entering iff `k` is
even; at even `k` the only possible changes are `rdx := 0` and
`orig_rax := SYS_fork` (so `rax` is kept), and at odd `k` the only possible
change is `rax := -EINTR` (so `rdx` and `orig_rax` are kept). -/
theorem phase_alternates (fork_fail : Bool) (events : List user_regs_struct) (k : Nat)
    (e : user_regs_struct) (he : events[k]? = some e) (st : LoopState) (x : user_regs_struct) :
    initial.state = false ∧
    (main_step fork_fail st x).1.state = (!st.state) ∧
    ((main_loop fork_fail initial (events.take k)).1.state = false ↔ k % 2 = 0) ∧
    ∃ it, (main_loop fork_fail initial events).2[k]? = some it ∧
      it = (main_step fork_fail (main_loop fork_fail initial (events.take k)).1 e).2 ∧
      (k % 2 = 0 →
        (it.uregs = e ∨ it.uregs = { e with rdx := 0 } ∨ it.uregs = { e with orig_rax := 57 }) ∧
        it.uregs.rax = e.rax) ∧
      (k % 2 = 1 →
        (it.uregs = e ∨ it.uregs = { e with rax := 2 ^ 64 - 4 }) ∧
        it.uregs.rdx = e.rdx ∧ it.uregs.orig_rax = e.orig_rax) := by
  have hk : k < events.length := (List.getElem?_eq_some.1 he).1
  have hlen : (events.take k).length = k := by rw [List.length_take]; omega
  have hst : (main_loop fork_fail initial (events.take k)).1.state = decide (k % 2 = 1) := by
    rw [main_loop_state, hlen]; simp [initial]
  obtain ⟨hent, hex⟩ :=
    main_step_uregs_cases fork_fail (main_loop fork_fail initial (events.take k)).1 e
  refine ⟨rfl, rfl, ?_, _, main_loop_get fork_fail events initial k e he, rfl, ?_, ?_⟩
  · rw [hst]; simp only [decide_eq_false_iff_not]; omega
  · intro hp
    have hcases := hent (by rw [hst]; simp [hp])
    refine ⟨hcases, ?_⟩
    rcases hcases with h | h | h <;> rw [h]
  · intro hp
    have hcases := hex (by rw [hst]; simp [hp])
    refine ⟨hcases, ?_⟩
    rcases hcases with h | h <;> rw [h] <;> exact ⟨rfl, rfl⟩

theorem phase_alternates_witness :
    six_pipe_reads[7]? = some (boundary 0 3 4096 10 10) ∧
    ∃ it, (main_loop false initial six_pipe_reads).2[7]? = some it ∧
      it.uregs = { boundary 0 3 4096 10 10 with rax := 2 ^ 64 - 4 } ∧
      it.uregs.rdx = 10 ∧ it.uregs.orig_rax = 0 :=
  ⟨by decide, by
    obtain ⟨it, hit, _, _, hodd⟩ :=
      (phase_alternates false six_pipe_reads 7 _ (by decide : six_pipe_reads[7]? = some
        (boundary 0 3 4096 10 10)) initial zero_regs).2.2.2
    refine ⟨it, hit, ?_, (hodd (by decide)).2⟩
    have h7 : (main_loop false initial six_pipe_reads).2[7]? = some
        ⟨some "read", true, { boundary 0 3 4096 10 10 with rax := 2 ^ 64 - 4 }, 0, -4,
          some { boundary 0 3 4096 10 10 with rax := 2 ^ 64 - 4 }⟩ := by decide
    rw [h7] at hit
    rw [← Option.some.inj hit]⟩

/-! ## The wait loop -/

/-- A stopped status is not an exited status: the two tests of
`wait_for_syscall` cannot both hold. -/
theorem not_exited_of_stopped (status : Nat) (h : WIFSTOPPED status = true) :
    WIFEXITED status = false := by
  simp only [WIFSTOPPED, WIFEXITED, beq_iff_eq, beq_eq_false_iff_ne] at *
  have h7 : status &&& 0x7f = (status &&& 0xff) &&& 0x7f := by
    rw [Nat.land_assoc]; rfl
  rw [h7, h]
  decide

/-- A tagged stop makes `wait_for_syscall` return `false` at once. -/
theorem wait_for_syscall_boundary (status : Nat) (rest : List Nat)
    (h : (WIFSTOPPED status && ((WSTOPSIG status &&& 0x80) != 0)) = true) :
    wait_for_syscall (status :: rest) = some { ret := false, resumes := 1, rest := rest } := by
  simp [wait_for_syscall, h]

/-- A normal exit makes `wait_for_syscall` return `true` at once. -/
theorem wait_for_syscall_exited (status : Nat) (rest : List Nat) (h : WIFEXITED status = true) :
    wait_for_syscall (status :: rest) = some { ret := true, resumes := 1, rest := rest } := by
  have hns : WIFSTOPPED status = false := by
    cases hst : WIFSTOPPED status
    · rfl
    · rw [not_exited_of_stopped status hst] at h; cases h
  simp [wait_for_syscall, h, hns]

/-- C9 (the code departs from its comment): on a status that is a tagged
syscall stop (`0x857f`, stopped by `SIGTRAP | 0x80`) `wait_for_syscall` returns
`false`, not `true`; on a normal exit (`0`, and `0x100` for `exit(1)`) it
returns `true`, not `false`. -/
theorem wait_for_syscall_polarity :
    WIFSTOPPED 0x857f = true ∧ WSTOPSIG 0x857f = 0x85 ∧
    wait_for_syscall [0x857f] = some { ret := false, resumes := 1, rest := [] } ∧
    WIFEXITED 0 = true ∧
    wait_for_syscall [0] = some { ret := true, resumes := 1, rest := [] } ∧
    WIFEXITED 0x100 = true ∧
    wait_for_syscall [0x100] = some { ret := true, resumes := 1, rest := [] } := by
  decide

/-- C10: `wait_for_syscall` consumes the statuses up to and including the
first decisive one, a stop whose stop signal has bit `0x80` set (result
`false`, which `main` takes as a boundary) or a normal exit (result `true`,
on which `main` leaves the loop). Each earlier status costs one more
`PTRACE_SYSCALL` resume and is not surfaced: on the earlier statuses alone the
call does not return. -/
theorem wait_for_syscall_first_decisive (pre : List Nat) (s : Nat) (post : List Nat)
    (hpre : ∀ t ∈ pre,
      (WIFSTOPPED t && ((WSTOPSIG t &&& 0x80) != 0)) = false ∧ WIFEXITED t = false)
    (hs : (WIFSTOPPED s && ((WSTOPSIG s &&& 0x80) != 0)) = true ∨ WIFEXITED s = true) :
    wait_for_syscall (pre ++ s :: post) =
      some { ret := WIFEXITED s, resumes := pre.length + 1, rest := post } ∧
    ((WIFSTOPPED s && ((WSTOPSIG s &&& 0x80) != 0)) = true → WIFEXITED s = false) ∧
    wait_for_syscall pre = none := by
  have hstop : (WIFSTOPPED s && ((WSTOPSIG s &&& 0x80) != 0)) = true → WIFEXITED s = false := by
    intro h
    rw [Bool.and_eq_true] at h
    exact not_exited_of_stopped s h.1
  induction pre with
  | nil =>
    refine ⟨?_, hstop, rfl⟩
    rcases hs with h | h
    · simp [wait_for_syscall, h, hstop h]
    · have hn : (WIFSTOPPED s && ((WSTOPSIG s &&& 0x80) != 0)) = false := by
        cases hc : (WIFSTOPPED s && ((WSTOPSIG s &&& 0x80) != 0))
        · rfl
        · rw [hstop hc] at h; cases h
      simp [wait_for_syscall, h, hn]
  | cons t pre ih =>
    obtain ⟨ht1, ht2⟩ := hpre t (List.mem_cons_self _ _)
    obtain ⟨ih1, _, ih3⟩ := ih (fun u hu => hpre u (List.mem_cons_of_mem _ hu))
    refine ⟨?_, hstop, ?_⟩
    · simp [wait_for_syscall, ht1, ht2, ih1]
    · simp [wait_for_syscall, ht1, ht2, ih3]

theorem wait_for_syscall_first_decisive_witness :
    (∀ t ∈ [0x137f, 0x057f, 0x000b],
      (WIFSTOPPED t && ((WSTOPSIG t &&& 0x80) != 0)) = false ∧ WIFEXITED t = false) ∧
    ((WIFSTOPPED 0x857f && ((WSTOPSIG 0x857f &&& 0x80) != 0)) = true ∨
      WIFEXITED 0x857f = true) ∧
    wait_for_syscall ([0x137f, 0x057f, 0x000b] ++ 0x857f :: [0x857f, 0]) =
      some { ret := WIFEXITED 0x857f, resumes := [0x137f, 0x057f, 0x000b].length + 1,
             rest := [0x857f, 0] } ∧
    ((WIFSTOPPED 0x857f && ((WSTOPSIG 0x857f &&& 0x80) != 0)) = true →
      WIFEXITED 0x857f = false) ∧
    wait_for_syscall [0x137f, 0x057f, 0x000b] = none :=
  ⟨by decide, by decide,
    wait_for_syscall_first_decisive [0x137f, 0x057f, 0x000b] 0x857f [0x857f, 0]
      (by decide) (by decide)⟩

/-! ## Write-back and the handlers' verdict -/

/-- When `handle_sys_read_write_common` returns `false` it has not touched
the snapshot. -/
theorem common_unchanged_of_false (u : user_regs_struct) (x c : Int)
    (h : (handle_sys_read_write_common u x c).2 = false) :
    (handle_sys_read_write_common u x c).1 = u := by
  revert h
  simp only [handle_sys_read_write_common]
  split_ifs <;> simp

/-- C11: writing the snapshot back only when the handler reported a mutation
leaves the tracee with the same registers as writing the handler's resulting
snapshot back at every boundary, for every loop state and boundary; for
whenever `modified` is `false` the iteration's snapshot is the one
`PTRACE_GETREGS` returned. The same at the handlers: `handle_sys_read` and
`handle_sys_write` return the snapshot they were given when they return
`false`, and `handle_sys_fork` never returns `false`. -/
theorem write_back_equivalent (fork_fail : Bool) (st : LoopState) (e : user_regs_struct)
    (s : Statics) (state : Int) :
    write_back_if_modified e (main_step fork_fail st e).2 =
      write_back_always (main_step fork_fail st e).2 ∧
    (main_step fork_fail st e).2.uregs =
      (if (main_step fork_fail st e).2.modified = true then (main_step fork_fail st e).2.uregs
        else e) ∧
    (handle_sys_read s e state).2.1 =
      (if (handle_sys_read s e state).2.2 = true then (handle_sys_read s e state).2.1 else e) ∧
    (handle_sys_write s e state).2.1 =
      (if (handle_sys_write s e state).2.2 = true then (handle_sys_write s e state).2.1 else e) ∧
    (handle_sys_fork e state).2 = true := by
  have hcommon : ∀ x c : Int, (handle_sys_read_write_common e x c).1 =
      (if (handle_sys_read_write_common e x c).2 = true
        then (handle_sys_read_write_common e x c).1 else e) := by
    intro x c
    cases h : (handle_sys_read_write_common e x c).2
    · simp [common_unchanged_of_false e x c h]
    · simp
  have hfork : ∀ x : Int, (handle_sys_fork e x).2 = true := by
    intro x; simp only [handle_sys_fork]; split_ifs <;> rfl
  have hstep : (main_step fork_fail st e).2.uregs =
      (if (main_step fork_fail st e).2.modified = true then (main_step fork_fail st e).2.uregs
        else e) := by
    simp only [main_step, dispatch, handle_sys_read, handle_sys_write]
    split_ifs <;> first
      | rfl
      | exact common_unchanged_of_false _ _ _ (by simp_all)
      | simp_all
  refine ⟨?_, hstep, hcommon _ _, hcommon _ _, hfork state⟩
  cases hm : (main_step fork_fail st e).2.modified
  · rw [hm] at hstep
    simp only [Bool.false_eq_true, if_false] at hstep
    have hs : (main_step fork_fail st e).2.setregs = none := by
      have : (main_step fork_fail st e).2.setregs =
          if (main_step fork_fail st e).2.modified = true
            then some (main_step fork_fail st e).2.uregs else none := rfl
      rw [this, hm]; rfl
    simp only [write_back_if_modified, write_back_always, hs]
    exact hstep.symm
  · have hs : (main_step fork_fail st e).2.setregs = some (main_step fork_fail st e).2.uregs := by
      have : (main_step fork_fail st e).2.setregs =
          if (main_step fork_fail st e).2.modified = true
            then some (main_step fork_fail st e).2.uregs else none := rfl
      rw [this, hm]; rfl
    simp only [write_back_if_modified, write_back_always, hs]

/-! ## The counters count Entering boundaries -/

/-- C12: each counter goes up by exactly one (modulo `2^64`) at every
Entering boundary of its syscall kind and is unchanged at every other
boundary, whatever the descriptor and whether or not the call is selected. So
after a trace the read counter is the number of `read` Entering boundaries
(likewise for `write`), and in a trace of `read` calls on arbitrary descriptors
a boundary `k` on a descriptor other than 0, 1, 2 is mutated exactly when the
selection test holds of `k / 2 + 1`, the number of all reads entered so far,
those on descriptors 0, 1, 2 included. -/
theorem counter_counts_entering_boundaries (fork_fail : Bool) (s : Statics) (st : LoopState)
    (x : user_regs_struct) (y : Int) (trace events : List user_regs_struct) (k : Nat)
    (e : user_regs_struct)
    (hy : y ≠ 0)
    (hread : ∀ ev ∈ events, toInt ev.orig_rax = SYS_read)
    (he : events[k]? = some e)
    (hfd : toInt e.rdi ≠ 0 ∧ toInt e.rdi ≠ 1 ∧ toInt e.rdi ≠ 2) :
    (handle_sys_read s x 0).1 = { s with reads := (s.reads + 1) % 2 ^ 64 } ∧
    (handle_sys_read s x y).1 = s ∧
    (handle_sys_write s x 0).1 = { s with writes := (s.writes + 1) % 2 ^ 64 } ∧
    (handle_sys_write s x y).1 = s ∧
    (main_step fork_fail st x).1.statics.reads =
      (if st.state = false ∧ toInt x.orig_rax = SYS_read then (st.statics.reads + 1) % 2 ^ 64
        else st.statics.reads) ∧
    (main_step fork_fail st x).1.statics.writes =
      (if st.state = false ∧ toInt x.orig_rax = SYS_write then (st.statics.writes + 1) % 2 ^ 64
        else st.statics.writes) ∧
    (main_loop fork_fail initial trace).1.statics.reads =
      entering_count SYS_read false trace % 2 ^ 64 ∧
    (main_loop fork_fail initial trace).1.statics.writes =
      entering_count SYS_write false trace % 2 ^ 64 ∧
    (entering_count SYS_read false trace < 2 ^ 64 →
      (main_loop fork_fail initial trace).1.statics.reads =
        entering_count SYS_read false trace) ∧
    (entering_count SYS_write false trace < 2 ^ 64 →
      (main_loop fork_fail initial trace).1.statics.writes =
        entering_count SYS_write false trace) ∧
    ∃ it, (main_loop fork_fail initial events).2[k]? = some it ∧
      (it.modified = true ↔ selected (k / 2 + 1) = true) := by
  have hr : (main_loop fork_fail initial trace).1.statics.reads =
      entering_count SYS_read false trace % 2 ^ 64 := by
    rw [main_loop_reads _ _ _ (by simp [initial])]; simp [initial]
  have hw : (main_loop fork_fail initial trace).1.statics.writes =
      entering_count SYS_write false trace % 2 ^ 64 := by
    rw [main_loop_writes _ _ _ (by simp [initial])]; simp [initial]
  refine ⟨by simp [handle_sys_read], by simp [handle_sys_read, hy],
    by simp [handle_sys_write], by simp [handle_sys_write, hy],
    main_step_reads _ _ _, main_step_writes _ _ _, hr, hw,
    fun h => by rw [hr, Nat.mod_eq_of_lt h], fun h => by rw [hw, Nat.mod_eq_of_lt h], ?_⟩
  have hk : k < events.length := (List.getElem?_eq_some.1 he).1
  have hmem : e ∈ events := by
    rcases List.getElem?_eq_some.1 he with ⟨h, rfl⟩
    exact List.getElem_mem _
  obtain ⟨hst, hrd⟩ := all_reads_state fork_fail events hread k hk
  obtain ⟨_, hm⟩ := main_step_read fork_fail
    (main_loop fork_fail initial (events.take k)).1 e (hread e hmem)
  obtain ⟨h0, h1, h2⟩ := hfd
  refine ⟨_, main_loop_get fork_fail events initial k e he, ?_⟩
  rw [hm, handle_sys_read_result, hst, hrd, common_not_exempt _ _ _ h0 h1 h2]
  have hcount : selected (if decide (k % 2 = 1) = false then ((k + 1) / 2 % 2 ^ 64 + 1) % 2 ^ 64
      else (k + 1) / 2 % 2 ^ 64) = selected (k / 2 + 1) := by
    apply selected_congr
    split_ifs with hp
    · simp only [decide_eq_false_iff_not] at hp; omega
    · simp only [decide_eq_false_iff_not, not_not] at hp; omega
  rw [hcount]
  cases hsel : selected (k / 2 + 1)
  · simp
  · simp only [if_true]
    split_ifs <;> simp

theorem counter_counts_entering_boundaries_witness :
    (∀ ev ∈ stdin_then_pipe, toInt ev.orig_rax = SYS_read) ∧
    stdin_then_pipe[6]? = some (boundary 0 3 4096 10 (2 ^ 64 - 38)) ∧
    (main_loop false initial stdin_then_pipe).1.statics.reads = 4 ∧
    ∃ it, (main_loop false initial stdin_then_pipe).2[6]? = some it ∧ it.modified = true :=
  ⟨by decide, by decide, by decide, by
    obtain ⟨it, hit, hsel⟩ :=
      (counter_counts_entering_boundaries false ⟨0, 0⟩ initial zero_regs 1 [] stdin_then_pipe 6
        (boundary 0 3 4096 10 (2 ^ 64 - 38)) (by decide) (by decide) (by decide)
        (by decide)).2.2.2.2.2.2.2.2.2.2
    exact ⟨it, hit, hsel.2 (by decide)⟩⟩

/-! ## Entry and exit of one call -/

/-- C13: the two boundaries of one `read` (or `write`) call get the same
verdict. If the Entering and the following Exiting boundary carry the same
descriptor, then for every counter value the handler returns `true` at entry
iff it returns `true` at exit; when it does, `rdx` is zeroed at entry and
`rax` is set to `-EINTR` at exit; when it does not, both snapshots are
unchanged. -/
theorem entry_exit_decisions_agree (s : Statics) (entry exit_regs : user_regs_struct) (y : Int)
    (hy : y ≠ 0) (hfd : toInt entry.rdi = toInt exit_regs.rdi) :
    ((handle_sys_read s entry 0).2.2 =
      (handle_sys_read (handle_sys_read s entry 0).1 exit_regs y).2.2) ∧
    ((handle_sys_read s entry 0).2.2 = true →
      (handle_sys_read s entry 0).2.1 = { entry with rdx := 0 } ∧
      (handle_sys_read (handle_sys_read s entry 0).1 exit_regs y).2.1 =
        { exit_regs with rax := 2 ^ 64 - 4 }) ∧
    ((handle_sys_read s entry 0).2.2 = false →
      (handle_sys_read s entry 0).2.1 = entry ∧
      (handle_sys_read (handle_sys_read s entry 0).1 exit_regs y).2.1 = exit_regs) ∧
    ((handle_sys_write s entry 0).2.2 =
      (handle_sys_write (handle_sys_write s entry 0).1 exit_regs y).2.2) ∧
    ((handle_sys_write s entry 0).2.2 = true →
      (handle_sys_write s entry 0).2.1 = { entry with rdx := 0 } ∧
      (handle_sys_write (handle_sys_write s entry 0).1 exit_regs y).2.1 =
        { exit_regs with rax := 2 ^ 64 - 4 }) ∧
    ((handle_sys_write s entry 0).2.2 = false →
      (handle_sys_write s entry 0).2.1 = entry ∧
      (handle_sys_write (handle_sys_write s entry 0).1 exit_regs y).2.1 = exit_regs) := by
  have key : ∀ c : Int,
      ((handle_sys_read_write_common entry 0 c).2 =
        (handle_sys_read_write_common exit_regs y c).2) ∧
      ((handle_sys_read_write_common entry 0 c).2 = true →
        (handle_sys_read_write_common entry 0 c).1 = { entry with rdx := 0 } ∧
        (handle_sys_read_write_common exit_regs y c).1 = { exit_regs with rax := 2 ^ 64 - 4 }) ∧
      ((handle_sys_read_write_common entry 0 c).2 = false →
        (handle_sys_read_write_common entry 0 c).1 = entry ∧
        (handle_sys_read_write_common exit_regs y c).1 = exit_regs) := by
    intro c
    simp only [handle_sys_read_write_common, hfd, hy, toU64_neg_EINTR, if_true, if_false]
    split_ifs <;> simp
  refine ⟨?_, ?_, ?_, ?_, ?_, ?_⟩ <;>
    simp only [handle_sys_read, handle_sys_write, hy, if_true, if_false]
  · exact (key _).1
  · exact (key _).2.1
  · exact (key _).2.2
  · exact (key _).1
  · exact (key _).2.1
  · exact (key _).2.2

theorem entry_exit_decisions_agree_witness :
    (1 : Int) ≠ 0 ∧
    toInt (boundary 0 3 4096 10 (2 ^ 64 - 38)).rdi = toInt (boundary 0 3 4096 0 0).rdi ∧
    (handle_sys_read ⟨3, 0⟩ (boundary 0 3 4096 10 (2 ^ 64 - 38)) 0).2.2 = true ∧
    (handle_sys_read ⟨3, 0⟩ (boundary 0 3 4096 10 (2 ^ 64 - 38)) 0).2.1 =
      { boundary 0 3 4096 10 (2 ^ 64 - 38) with rdx := 0 } ∧
    (handle_sys_read (handle_sys_read ⟨3, 0⟩ (boundary 0 3 4096 10 (2 ^ 64 - 38)) 0).1
      (boundary 0 3 4096 0 0) 1).2.1 = { boundary 0 3 4096 0 0 with rax := 2 ^ 64 - 4 } :=
  ⟨by decide, by decide, by decide,
    (entry_exit_decisions_agree ⟨3, 0⟩ (boundary 0 3 4096 10 (2 ^ 64 - 38))
      (boundary 0 3 4096 0 0) 1 (by decide) (by decide)).2.1 (by decide)⟩

/-! ## The getpid quirk and the previous syscall number -/

theorem main_loop_snoc (fork_fail : Bool) (events : List user_regs_struct)
    (e : user_regs_struct) :
    ∀ st : LoopState,
      (main_loop fork_fail st (events ++ [e])).1 =
        (main_step fork_fail (main_loop fork_fail st events).1 e).1 := by
  induction events with
  | nil => intro st; rfl
  | cons x rest ih =>
    intro st
    rw [List.cons_append]
    simp only [main_loop]
    exact ih _

theorem last_entering_syscall_snoc (events : List user_regs_struct) (e : user_regs_struct) :
    ∀ (state : Bool) (prev : Int),
      last_entering_syscall state prev (events ++ [e]) =
        if xor state (decide (events.length % 2 = 1)) = false then toInt e.orig_rax
        else last_entering_syscall state prev events := by
  induction events with
  | nil => intro state prev; cases state <;> simp [last_entering_syscall]
  | cons x rest ih =>
    intro state prev
    have hflip : xor (!state) (decide (rest.length % 2 = 1)) =
        xor state (decide ((rest.length + 1) % 2 = 1)) := by
      cases state <;> by_cases h : rest.length % 2 = 1 <;> simp [h] <;> omega
    rw [List.cons_append]
    simp only [last_entering_syscall, List.length_cons]
    rw [ih, hflip]

/-- C14 (as amended): a boundary that reports `getpid` is classified as `fork`
exactly when the recorded previous syscall number is `fork`, in either phase.
When it is not, the boundary passes through unmutated. When it is and
fork-failure simulation is on, an Entering boundary is handled by
`handle_sys_fork`: a mutation is reported and `orig_rax` is set to `SYS_fork`;
an Exiting boundary has `rax` forged. With the simulation off nothing is
mutated. -/
theorem getpid_classification (fork_fail : Bool) (st : LoopState) (e : user_regs_struct)
    (hgetpid : toInt e.orig_rax = SYS_getpid) :
    ((main_step fork_fail st e).2.syscall_name = some "fork" ↔
      st.previous_syscall = SYS_fork) ∧
    (st.previous_syscall ≠ SYS_fork →
      (main_step fork_fail st e).2.modified = false ∧ (main_step fork_fail st e).2.uregs = e) ∧
    (st.previous_syscall = SYS_fork → st.state = false →
      (main_step true st e).2.modified = true ∧
      (main_step true st e).2.uregs = { e with orig_rax := 57 }) ∧
    (st.previous_syscall = SYS_fork → st.state = true →
      (main_step true st e).2.modified = true ∧
      (main_step true st e).2.uregs = { e with rax := 2 ^ 64 - 4 }) ∧
    (main_step false st e).2.modified = false ∧ (main_step false st e).2.uregs = e := by
  have hg : toInt e.orig_rax = 39 := hgetpid
  refine ⟨?_, fun hp => ?_, fun hp hs => ?_, fun hp hs => ?_, ?_, ?_⟩
  · by_cases hp : st.previous_syscall = 57
    · cases fork_fail <;>
        simp [main_step, dispatch, hg, hp, SYS_read, SYS_write, SYS_fork, SYS_getpid]
    · simp [main_step, dispatch, hg, hp, SYS_read, SYS_write, SYS_fork, SYS_getpid]
  · have hp57 : st.previous_syscall ≠ 57 := hp
    simp [main_step, dispatch, hg, hp57, SYS_read, SYS_write, SYS_fork, SYS_getpid]
  · have hp57 : st.previous_syscall = 57 := hp
    simp only [main_step, dispatch, handle_sys_fork, toU64_SYS_fork, toU64_neg_EINTR]
    simp [boolToInt, hg, hp57, hs, SYS_read, SYS_write, SYS_fork, SYS_getpid]
  · have hp57 : st.previous_syscall = 57 := hp
    simp only [main_step, dispatch, handle_sys_fork, toU64_SYS_fork, toU64_neg_EINTR]
    simp [boolToInt, hg, hp57, hs, SYS_read, SYS_write, SYS_fork, SYS_getpid]
  · by_cases hp : st.previous_syscall = 57 <;>
      simp [main_step, dispatch, hg, hp, SYS_read, SYS_write, SYS_fork, SYS_getpid]
  · by_cases hp : st.previous_syscall = 57 <;>
      simp [main_step, dispatch, hg, hp, SYS_read, SYS_write, SYS_fork, SYS_getpid]

theorem getpid_classification_witness :
    toInt (boundary 39 0 0 0 (2 ^ 64 - 38)).orig_rax = SYS_getpid ∧
    (main_step true ⟨false, 57, ⟨0, 0⟩⟩ (boundary 39 0 0 0 (2 ^ 64 - 38))).2.modified = true ∧
    (main_step true ⟨false, 57, ⟨0, 0⟩⟩ (boundary 39 0 0 0 (2 ^ 64 - 38))).2.uregs =
      { boundary 39 0 0 0 (2 ^ 64 - 38) with orig_rax := 57 } :=
  ⟨by decide,
    (getpid_classification true ⟨false, 57, ⟨0, 0⟩⟩ (boundary 39 0 0 0 (2 ^ 64 - 38))
      (by decide)).2.2.1 rfl rfl⟩

/-- C14 as stated fails: with fork-failure simulation on, in the trace of a
`fork` call (exit reported as `fork`) followed by a `getpid` call, the Entering
boundary of the `getpid` call (index 2) is classified as `fork`, a mutation is
reported and `orig_rax` is changed from 39 to 57. -/
theorem getpid_entry_after_fork_is_rewritten :
    fork_then_getpid[2]? = some (boundary 39 0 0 0 (2 ^ 64 - 38)) ∧
    (main_loop true initial (fork_then_getpid.take 2)).1.state = false ∧
    (main_loop true initial fork_then_getpid).2[2]? =
      some { syscall_name := some "fork", modified := true,
             uregs := boundary 57 0 0 0 (2 ^ 64 - 38), new_syscall := 57, retval := -38,
             setregs := some (boundary 57 0 0 0 (2 ^ 64 - 38)) } ∧
    ¬ (∀ (st : LoopState) (e : user_regs_struct), st.state = false →
        toInt e.orig_rax = SYS_getpid →
        (main_step true st e).2.modified = false ∧
        (main_step true st e).2.uregs.orig_rax = e.orig_rax) := by
  refine ⟨by decide, by decide, by decide, fun h => ?_⟩
  have h2 := h ⟨false, 57, ⟨0, 0⟩⟩ (boundary 39 0 0 0 (2 ^ 64 - 38)) rfl (by decide)
  revert h2
  decide

/-- C15 (as amended): the stored previous-syscall value is the syscall number
observed at the most recent boundary of either phase (0 before the first). So
when the next boundary is an Exiting one (an odd number of boundaries handled)
it is the number observed at the most recent Entering boundary; when the next
boundary is an Entering one it is the number observed at the preceding Exiting
boundary. -/
theorem previous_syscall_is_last_boundary (fork_fail : Bool) (events : List user_regs_struct)
    (e : user_regs_struct) :
    (main_loop fork_fail initial []).1.previous_syscall = 0 ∧
    (main_loop fork_fail initial (events ++ [e])).1.previous_syscall = toInt e.orig_rax ∧
    last_entering_syscall false 0 (events ++ [e]) =
      (if events.length % 2 = 0 then (main_loop fork_fail initial (events ++ [e])).1.previous_syscall
        else last_entering_syscall false 0 events) := by
  have hprev : (main_loop fork_fail initial (events ++ [e])).1.previous_syscall =
      toInt e.orig_rax := by
    rw [main_loop_snoc, main_step_previous_syscall]
  refine ⟨rfl, hprev, ?_⟩
  rw [last_entering_syscall_snoc, hprev]
  by_cases h : events.length % 2 = 0
  · have h1 : ¬ events.length % 2 = 1 := by omega
    simp [h, h1]
  · have h1 : events.length % 2 = 1 := by omega
    simp [h, h1]

/-- C15 as stated fails: after the two boundaries of a `fork` call whose exit
is reported as `getpid`, the stored value is 39, the number observed at the
Exiting boundary, while the most recent Entering boundary reported 57. -/
theorem previous_syscall_overwritten_at_exit :
    (main_loop true initial quirked_fork).1.previous_syscall = 39 ∧
    last_entering_syscall false 0 quirked_fork = 57 ∧
    (main_loop true initial quirked_fork).1.previous_syscall ≠
      last_entering_syscall false 0 quirked_fork := by
  decide

/-! ## The fork handler at entry, and the forged return value -/

/-- C16 (as amended): with fork-failure simulation on, at an Entering boundary
whose syscall number (`orig_rax` read as an `int`) is `fork`, a mutation is
reported, `orig_rax` equals `SYS_fork` afterwards and every other register is
as before; when the 64-bit register `orig_rax` already equals `SYS_fork` the
write is a pure re-assertion and the whole snapshot is unchanged. -/
theorem fork_entry_reassertion (st : LoopState) (e : user_regs_struct)
    (hphase : st.state = false) (hfork : toInt e.orig_rax = SYS_fork) :
    handle_sys_fork e (boolToInt st.state) = ({ e with orig_rax := 57 }, true) ∧
    (main_step true st e).2.modified = true ∧
    (main_step true st e).2.uregs = { e with orig_rax := 57 } ∧
    (main_step true st e).2.uregs.orig_rax = toU64 SYS_fork ∧
    (e.orig_rax = 57 → (main_step true st e).2.uregs = e) := by
  have hh : handle_sys_fork e (boolToInt st.state) = ({ e with orig_rax := 57 }, true) := by
    simp [handle_sys_fork, boolToInt, hphase, toU64_SYS_fork]
  obtain ⟨_, hm, hu, _, _⟩ := main_step_fork_on st e (Or.inl hfork)
  rw [hh] at hu
  refine ⟨hh, hm, hu, ?_, fun h57 => ?_⟩
  · rw [hu, toU64_SYS_fork]
  · rw [hu, ← h57]

theorem fork_entry_reassertion_witness :
    initial.state = false ∧
    toInt (boundary 57 0 0 0 (2 ^ 64 - 38)).orig_rax = SYS_fork ∧
    (main_step true initial (boundary 57 0 0 0 (2 ^ 64 - 38))).2.modified = true ∧
    (main_step true initial (boundary 57 0 0 0 (2 ^ 64 - 38))).2.uregs =
      boundary 57 0 0 0 (2 ^ 64 - 38) :=
  ⟨rfl, by decide,
    (fork_entry_reassertion initial (boundary 57 0 0 0 (2 ^ 64 - 38)) rfl (by decide)).2.1,
    (fork_entry_reassertion initial (boundary 57 0 0 0 (2 ^ 64 - 38)) rfl (by decide)).2.2.2.2
      rfl⟩

/-- C16 as stated fails: at an Entering boundary whose `orig_rax` is
`2^32 + 57`, the dispatcher reads the syscall number 57, names the call
`fork`, and with fork-failure simulation on `handle_sys_fork` changes
`orig_rax` from `2^32 + 57` to 57. -/
theorem fork_entry_write_changes_upper_bits :
    toInt (boundary (2 ^ 32 + 57) 0 0 0 (2 ^ 64 - 38)).orig_rax = SYS_fork ∧
    (main_step true initial (boundary (2 ^ 32 + 57) 0 0 0 (2 ^ 64 - 38))).2.syscall_name =
      some "fork" ∧
    (main_step true initial (boundary (2 ^ 32 + 57) 0 0 0 (2 ^ 64 - 38))).2.modified = true ∧
    (main_step true initial (boundary (2 ^ 32 + 57) 0 0 0 (2 ^ 64 - 38))).2.uregs.orig_rax = 57 ∧
    (handle_sys_fork (boundary (2 ^ 32 + 57) 0 0 0 (2 ^ 64 - 38)) 0).1 ≠
      boundary (2 ^ 32 + 57) 0 0 0 (2 ^ 64 - 38) := by
  decide

/-- C17: a forged failure at an Exiting boundary puts `2^64 - 4`, the 64-bit
two's-complement encoding of `-EINTR`, in `rax`; read as an `int` (the
`retval` of the debug line) that is `-4`; and the snapshot produced does not
depend on what `rax` held before. At the handlers: with a non-zero `state`,
`handle_sys_fork` always, and `handle_sys_read_write_common` whenever it
returns `true`, leave `rax = 2^64 - 4`. -/
theorem forged_return_value (fork_fail : Bool) (st : LoopState) (e : user_regs_struct)
    (a : Nat) (y c : Int) (hphase : st.state = true) (hy : y ≠ 0)
    (hmod : (main_step fork_fail st e).2.modified = true) :
    EINTR = 4 ∧
    toU64 (-EINTR) = 2 ^ 64 - 4 ∧
    toInt (2 ^ 64 - 4) = -4 ∧
    (main_step fork_fail st e).2.uregs = { e with rax := 2 ^ 64 - 4 } ∧
    (main_step fork_fail st e).2.uregs.rax = 2 ^ 64 - 4 ∧
    (main_step fork_fail st e).2.retval = -4 ∧
    (main_step fork_fail st { e with rax := a }).2.modified = true ∧
    (main_step fork_fail st { e with rax := a }).2.uregs = (main_step fork_fail st e).2.uregs ∧
    (handle_sys_fork e y).1.rax = 2 ^ 64 - 4 ∧
    ((handle_sys_read_write_common e y c).2 = true →
      (handle_sys_read_write_common e y c).1.rax = 2 ^ 64 - 4) := by
  have hu : (main_step fork_fail st e).2.uregs = { e with rax := 2 ^ 64 - 4 } := by
    revert hmod
    have h1 : boolToInt true = 1 := rfl
    simp only [main_step, dispatch, handle_sys_read, handle_sys_write, handle_sys_fork,
      handle_sys_read_write_common, hphase, h1, one_ne_zero, if_false, toU64_neg_EINTR]
    split_ifs <;> simp
  have hsame : (main_step fork_fail st { e with rax := a }).2.modified =
        (main_step fork_fail st e).2.modified ∧
      ((main_step fork_fail st e).2.modified = true →
        (main_step fork_fail st { e with rax := a }).2.uregs =
          (main_step fork_fail st e).2.uregs) := by
    have h1 : boolToInt true = 1 := rfl
    simp only [main_step, dispatch, handle_sys_read, handle_sys_write, handle_sys_fork,
      handle_sys_read_write_common, hphase, h1, one_ne_zero, if_false]
    split_ifs <;> simp
  refine ⟨rfl, toU64_neg_EINTR, by decide, hu, by rw [hu], ?_, ?_, hsame.2 hmod, ?_, ?_⟩
  · have hr : (main_step fork_fail st e).2.retval = toInt (main_step fork_fail st e).2.uregs.rax :=
      rfl
    rw [hr, hu]
    show toInt (2 ^ 64 - 4) = -4
    decide
  · rw [hsame.1, hmod]
  · simp [handle_sys_fork, hy, toU64_neg_EINTR]
  · simp only [handle_sys_read_write_common, hy, toU64_neg_EINTR, if_false]
    split_ifs <;> simp

theorem forged_return_value_witness :
    (⟨true, 0, ⟨4, 0⟩⟩ : LoopState).state = true ∧ (1 : Int) ≠ 0 ∧
    (main_step false ⟨true, 0, ⟨4, 0⟩⟩ (boundary 0 3 4096 0 0)).2.modified = true ∧
    (main_step false ⟨true, 0, ⟨4, 0⟩⟩ (boundary 0 3 4096 0 0)).2.uregs.rax = 2 ^ 64 - 4 ∧
    (main_step false ⟨true, 0, ⟨4, 0⟩⟩ (boundary 0 3 4096 0 0)).2.retval = -4 :=
  ⟨rfl, by decide, by decide,
    (forged_return_value false ⟨true, 0, ⟨4, 0⟩⟩ (boundary 0 3 4096 0 0) 7 1 4 rfl (by decide)
      (by decide)).2.2.2.2.1,
    (forged_return_value false ⟨true, 0, ⟨4, 0⟩⟩ (boundary 0 3 4096 0 0) 7 1 4 rfl (by decide)
      (by decide)).2.2.2.2.2.1⟩

/-! ## Frame of the read/write handler -/

/-- C18: `handle_sys_read_write_common` changes no register other than `rdx`
at an Entering boundary (`state = 0`) and no register other than `rax` at an
Exiting boundary (`state` non-zero); `rdi`, `rsi` and `orig_rax` are never
altered. It returns `true` exactly on the path that performs the assignment
(descriptor not 0, 1, 2 and `count % 5 == 4`), where the result is the
snapshot with `rdx := 0`, respectively `rax := -EINTR`; when it returns
`false` the snapshot is unchanged. -/
theorem common_frame (u : user_regs_struct) (y count : Int) (hy : y ≠ 0) :
    (handle_sys_read_write_common u 0 count).1 =
      { u with rdx := (handle_sys_read_write_common u 0 count).1.rdx } ∧
    (handle_sys_read_write_common u y count).1 =
      { u with rax := (handle_sys_read_write_common u y count).1.rax } ∧
    ((handle_sys_read_write_common u 0 count).1.rdi = u.rdi ∧
      (handle_sys_read_write_common u 0 count).1.rsi = u.rsi ∧
      (handle_sys_read_write_common u 0 count).1.orig_rax = u.orig_rax) ∧
    ((handle_sys_read_write_common u y count).1.rdi = u.rdi ∧
      (handle_sys_read_write_common u y count).1.rsi = u.rsi ∧
      (handle_sys_read_write_common u y count).1.orig_rax = u.orig_rax) ∧
    ((handle_sys_read_write_common u 0 count).2 = true ↔
      (¬ (toInt u.rdi = 0 ∨ toInt u.rdi = 1 ∨ toInt u.rdi = 2) ∧ Int.tmod count 5 = 4)) ∧
    ((handle_sys_read_write_common u y count).2 = true ↔
      (¬ (toInt u.rdi = 0 ∨ toInt u.rdi = 1 ∨ toInt u.rdi = 2) ∧ Int.tmod count 5 = 4)) ∧
    ((handle_sys_read_write_common u 0 count).2 = true →
      (handle_sys_read_write_common u 0 count).1 = { u with rdx := 0 }) ∧
    ((handle_sys_read_write_common u y count).2 = true →
      (handle_sys_read_write_common u y count).1 = { u with rax := 2 ^ 64 - 4 }) ∧
    ((handle_sys_read_write_common u 0 count).2 = false →
      (handle_sys_read_write_common u 0 count).1 = u) ∧
    ((handle_sys_read_write_common u y count).2 = false →
      (handle_sys_read_write_common u y count).1 = u) := by
  simp only [handle_sys_read_write_common, hy, toU64_neg_EINTR, if_true, if_false]
  by_cases hex : toInt u.rdi = 0 ∨ toInt u.rdi = 1 ∨ toInt u.rdi = 2
  · simp [hex]
  · by_cases hc : Int.tmod count 5 = 4
    · simp [hex, hc]
    · simp [hex, hc]

theorem common_frame_witness :
    (1 : Int) ≠ 0 ∧
    (handle_sys_read_write_common (boundary 0 3 4096 10 (2 ^ 64 - 38)) 0 4).1 =
      { boundary 0 3 4096 10 (2 ^ 64 - 38) with rdx := 0 } ∧
    (handle_sys_read_write_common (boundary 0 3 4096 10 (2 ^ 64 - 38)) 1 4).1 =
      { boundary 0 3 4096 10 (2 ^ 64 - 38) with rax := 2 ^ 64 - 4 } :=
  ⟨by decide,
    (common_frame (boundary 0 3 4096 10 (2 ^ 64 - 38)) 1 4 (by decide)).2.2.2.2.2.2.1
      (by decide),
    (common_frame (boundary 0 3 4096 10 (2 ^ 64 - 38)) 1 4 (by decide)).2.2.2.2.2.2.2.1
      (by decide)⟩

/-! ## Statuses that the wait loop does not surface -/

/-- On statuses none of which is a tagged stop or a normal exit the wait loop
does not return. -/
theorem wait_for_syscall_none (l : List Nat)
    (h : ∀ t ∈ l,
      (WIFSTOPPED t && ((WSTOPSIG t &&& 0x80) != 0)) = false ∧ WIFEXITED t = false) :
    wait_for_syscall l = none := by
  induction l with
  | nil => rfl
  | cons t rest ih =>
    obtain ⟨h1, h2⟩ := h t (List.mem_cons_self _ _)
    simp [wait_for_syscall, h1, h2, ih (fun u hu => h u (List.mem_cons_of_mem _ hu))]

/-- A return of the wait loop is caused by a status in front of a tail of
statuses that are neither tagged stops nor normal exits. -/
theorem wait_for_syscall_resumes_le (pre tail : List Nat)
    (h : ∀ t ∈ tail,
      (WIFSTOPPED t && ((WSTOPSIG t &&& 0x80) != 0)) = false ∧ WIFEXITED t = false) :
    ∀ r, wait_for_syscall (pre ++ tail) = some r → r.resumes ≤ pre.length := by
  induction pre with
  | nil =>
    intro r hr
    rw [List.nil_append, wait_for_syscall_none tail h] at hr
    cases hr
  | cons t pre ih =>
    intro r hr
    rw [List.cons_append] at hr
    simp only [wait_for_syscall] at hr
    split_ifs at hr with h1 h2
    · cases hr; simp
    · cases hr; simp
    · cases hw : wait_for_syscall (pre ++ tail) with
      | none => rw [hw] at hr; cases hr
      | some r0 =>
        rw [hw] at hr
        have hr0 : r = { r0 with resumes := r0.resumes + 1 } := (Option.some.inj hr).symm
        subst hr0
        have := ih r0 hw
        simp only [List.length_cons]
        omega

/-- C19: a status that is neither a stop nor a normal exit (termination by a
signal) is not classified: the loop resumes and waits again. So on a status
sequence `f` that from index `p` on contains only such statuses, a call of
`wait_for_syscall` started at or after `p` never returns, however many
statuses it consumes; a call started at the beginning can return only on one
of the first `p` statuses, and does not return at all when none of those is a
tagged stop or a normal exit. -/
theorem signaled_status_never_returns (f : Nat → Nat) (p : Nat)
    (hfrom : ∀ i, p ≤ i → WIFSTOPPED (f i) = false ∧ WIFEXITED (f i) = false) :
    (∀ i rest, p ≤ i →
      wait_for_syscall (f i :: rest) =
        (wait_for_syscall rest).map fun r => { r with resumes := r.resumes + 1 }) ∧
    (∀ q n, p ≤ q → wait_for_syscall ((List.range n).map fun i => f (q + i)) = none) ∧
    (∀ n r, wait_for_syscall ((List.range n).map f) = some r → r.resumes ≤ p) ∧
    ((∀ i, i < p →
        (WIFSTOPPED (f i) && ((WSTOPSIG (f i) &&& 0x80) != 0)) = false ∧
          WIFEXITED (f i) = false) →
      ∀ n, wait_for_syscall ((List.range n).map f) = none) := by
  have hnd : ∀ i, p ≤ i →
      (WIFSTOPPED (f i) && ((WSTOPSIG (f i) &&& 0x80) != 0)) = false ∧
        WIFEXITED (f i) = false := by
    intro i hi
    obtain ⟨h1, h2⟩ := hfrom i hi
    exact ⟨by simp [h1], h2⟩
  have hlen : ∀ (l : List Nat) (r : WaitResult), wait_for_syscall l = some r →
      r.resumes ≤ l.length := by
    intro l r hr
    have := wait_for_syscall_resumes_le l [] (by simp) r (by simpa using hr)
    exact this
  refine ⟨fun i rest hi => ?_, fun q n hq => ?_, fun n r hr => ?_, fun hbefore n => ?_⟩
  · obtain ⟨h1, h2⟩ := hnd i hi
    simp [wait_for_syscall, h1, h2]
  · apply wait_for_syscall_none
    intro t ht
    obtain ⟨i, _, rfl⟩ := List.mem_map.1 ht
    exact hnd (q + i) (by omega)
  · by_cases hn : n ≤ p
    · have := hlen _ r hr
      simp only [List.length_map, List.length_range] at this
      omega
    · have hsplit : (List.range n).map f =
          (List.range p).map f ++ (List.range (n - p)).map (fun i => f (p + i)) := by
        have hnp : n = p + (n - p) := by omega
        conv_lhs => rw [hnp, List.range_add, List.map_append, List.map_map]
        rfl
      rw [hsplit] at hr
      have := wait_for_syscall_resumes_le _ _ (by
        intro t ht
        obtain ⟨i, _, rfl⟩ := List.mem_map.1 ht
        exact hnd (p + i) (by omega)) r hr
      simpa using this
  · apply wait_for_syscall_none
    intro t ht
    obtain ⟨i, _, rfl⟩ := List.mem_map.1 ht
    by_cases hi : i < p
    · exact hbefore i hi
    · exact hnd i (by omega)

theorem signaled_status_never_returns_witness :
    (∀ i, 2 ≤ i →
      WIFSTOPPED ((fun i => if i < 2 then 0x137f else 0x000b) i) = false ∧
      WIFEXITED ((fun i => if i < 2 then 0x137f else 0x000b) i) = false) ∧
    wait_for_syscall ((List.range 5).map fun i => if i < 2 then 0x137f else 0x000b) = none :=
  ⟨fun i hi => by
      have h : ¬ i < 2 := by omega
      simp only [h, if_false]
      decide,
    (signaled_status_never_returns (fun i => if i < 2 then 0x137f else 0x000b) 2 (fun i hi => by
      have h : ¬ i < 2 := by omega
      simp only [h, if_false]
      decide)).2.2.2 (fun i hi => by
        simp only [hi, if_true]
        decide) 5⟩

/-! ## Truncation of the counter in the selection test -/

/-- C20: the selection test sees the 64-bit counter only through `(int)` and
uses the truncating remainder. For a descriptor other than 0, 1, 2 the handler
returns `true` iff `(int)c % 5 == 4`, that is iff the low 32 bits of `c` are
below `2^31` and congruent to 4 modulo 5. When the low 32 bits lie in
`[2^31, 2^32)` the `int` is negative, its remainder is at most 0 and the call
is not selected. The selected counter values are not periodic with period 5:
`2^31 - 4` is selected and `2^31 + 1` is not, `2^32 - 1` is not selected and
`2^32 + 4` is. -/
theorem selection_truncates_counter (s : Statics) (u : user_regs_struct) (y : Int) (c : Nat)
    (hfd : toInt u.rdi ≠ 0 ∧ toInt u.rdi ≠ 1 ∧ toInt u.rdi ≠ 2) :
    (handle_sys_read s u y).2 =
      handle_sys_read_write_common u y (toInt (handle_sys_read s u y).1.reads) ∧
    (handle_sys_write s u y).2 =
      handle_sys_read_write_common u y (toInt (handle_sys_write s u y).1.writes) ∧
    ((handle_sys_read_write_common u y (toInt c)).2 = true ↔ Int.tmod (toInt c) 5 = 4) ∧
    (Int.tmod (toInt c) 5 = 4 ↔ (c % 2 ^ 32 < 2 ^ 31 ∧ c % 2 ^ 32 % 5 = 4)) ∧
    (2 ^ 31 ≤ c % 2 ^ 32 →
      toInt c < 0 ∧ Int.tmod (toInt c) 5 ≤ 0 ∧
      handle_sys_read_write_common u y (toInt c) = (u, false)) ∧
    (selected (2 ^ 31 - 4) = true ∧ selected (2 ^ 31 - 4 + 5) = false) ∧
    (selected (2 ^ 32 + 4 - 5) = false ∧ selected (2 ^ 32 + 4) = true) ∧
    ¬ (∀ n, selected (n + 5) = selected n) := by
  obtain ⟨h0, h1, h2⟩ := hfd
  have hneg : 2 ^ 31 ≤ c % 2 ^ 32 → toInt c < 0 := by
    intro h
    have hlt : ¬ c % 2 ^ 32 < 2 ^ 31 := by omega
    simp only [toInt, hlt, if_false]
    omega
  have hsel : (handle_sys_read_write_common u y (toInt c)).2 = true ↔
      Int.tmod (toInt c) 5 = 4 := by
    simp only [handle_sys_read_write_common, h0, h1, h2, or_self, if_false]
    split_ifs <;> simp_all
  have ha : selected (2 ^ 31 - 4) = true := (selected_iff _).2 (by norm_num)
  have hb : selected (2 ^ 31 - 4 + 5) = false := by
    cases h : selected (2 ^ 31 - 4 + 5)
    · rfl
    · have := (selected_iff _).1 h
      norm_num at this
  have hc : selected (2 ^ 32 + 4 - 5) = false := by
    cases h : selected (2 ^ 32 + 4 - 5)
    · rfl
    · have := (selected_iff _).1 h
      norm_num at this
  have hd : selected (2 ^ 32 + 4) = true := (selected_iff _).2 (by norm_num)
  refine ⟨rfl, rfl, hsel, tmod_toInt_eq_four c, fun h => ⟨hneg h, tmod_five_nonpos _ (hneg h), ?_⟩,
    ⟨ha, hb⟩, ⟨hc, hd⟩, fun hall => ?_⟩
  · have hns : ¬ Int.tmod (toInt c) 5 = 4 := by
      have := tmod_five_nonpos _ (hneg h)
      omega
    simp only [handle_sys_read_write_common, h0, h1, h2, or_self, if_false, hns]
  · have := hall (2 ^ 31 - 4)
    rw [ha, hb] at this
    cases this

theorem selection_truncates_counter_witness :
    (toInt (boundary 0 3 4096 10 0).rdi ≠ 0 ∧ toInt (boundary 0 3 4096 10 0).rdi ≠ 1 ∧
      toInt (boundary 0 3 4096 10 0).rdi ≠ 2) ∧
    2 ^ 31 ≤ (2 ^ 31 + 4) % 2 ^ 32 ∧
    handle_sys_read_write_common (boundary 0 3 4096 10 0) 0 (toInt (2 ^ 31 + 4)) =
      (boundary 0 3 4096 10 0, false) :=
  ⟨by decide, by decide,
    ((selection_truncates_counter ⟨0, 0⟩ (boundary 0 3 4096 10 0) 0 (2 ^ 31 + 4)
      (by decide)).2.2.2.2.1 (by decide)).2.2⟩

end Syscull
